import Mathlib

/-!
# Verification of `ComfyUI-Model_Downloader` (`model_downloader.py`)

A shallow embedding of the download/verify/ledger engine of
`model_downloader.py` and proofs about the claims of its specification.

Python strings are modelled as `List Char` (`PyStr`), Python's
`configparser` state as an ordered list of sections, and the filesystem
visible to one download as the set of paths that currently exist
(`List PyStr`).  Network and clock effects are passed in explicitly as
parameters (per-attempt transfer outcomes, directory listings,
timestamps).  Path semantics follow POSIX (`os.path` on the Linux host
the plugin runs on): `os.path.isabs` is "starts with `/`" and
`os.path.normpath` is the CPython `posixpath.normpath` algorithm.
-/

/-- Python `str` modelled as its list of characters. -/
abbrev PyStr := List Char

/-- A single quote character, used in the `ValueError` messages of
`normalize_and_validate_path`. -/
def squote : Char := Char.ofNat 39

namespace PyStr

/-- Python whitespace as recognised by `str.strip()` (ASCII part). -/
def isPySpace (c : Char) : Bool :=
  c = ' ' ∨ c = '\t' ∨ c = '\n' ∨ c = '\r' ∨ c = Char.ofNat 11 ∨ c = Char.ofNat 12

/-- Python `s.strip()`. -/
def pyStrip (s : PyStr) : PyStr :=
  ((s.dropWhile isPySpace).reverse.dropWhile isPySpace).reverse

/-- Python `pat in s` (substring containment). -/
def strContains (s pat : PyStr) : Bool := decide (pat <:+: s)

/-- Python `s.split(sep)` for a single-character separator. -/
def splitOnChar (sep : Char) : PyStr → List PyStr
  | [] => [[]]
  | c :: rest =>
    match splitOnChar sep rest with
    | [] => [[c]]        -- unreachable: splitOnChar never returns []
    | h :: t => if c = sep then [] :: h :: t else (c :: h) :: t

/-- Python `sep.join(parts)` for a single-character separator. -/
def joinChar (sep : Char) (parts : List PyStr) : PyStr :=
  List.intercalate [sep] parts

/-- Python `os.path.basename` for the forward-slash paths used here:
the text after the last `/` (the whole string when there is no `/`). -/
def basename (p : PyStr) : PyStr :=
  match (splitOnChar '/' p).getLast? with
  | some x => x
  | none => []

/-- Python `os.path.dirname` for relative forward-slash paths:
the text before the last `/` (empty when there is no `/`). -/
def dirname (p : PyStr) : PyStr :=
  joinChar '/' (splitOnChar '/' p).dropLast

/-- Split a string at the first occurrence of a (non-empty) pattern,
returning the text before and after it; `none` when the pattern does not
occur.  Models Python's first-occurrence `re.search` / `str.split(pat, 1)`
plumbing used by the URL helpers. -/
def splitFirst (pat : PyStr) : PyStr → Option (PyStr × PyStr)
  | [] => if pat = [] then some ([], []) else none
  | c :: rest =>
    if pat.isPrefixOf (c :: rest) then some ([], (c :: rest).drop pat.length)
    else (splitFirst pat rest).map (fun r => (c :: r.1, r.2))

/-- Python `s.split(sep)[-1]`. -/
def lastComp (p : PyStr) : PyStr := basename p

end PyStr

open PyStr

/-! ## `os.path` (POSIX semantics)

`normpath` is a direct transcription of CPython's `posixpath.normpath`:
collapse separators, drop `.` components, resolve `..` against preceding
components (keeping leading `..` for relative paths), preserve the
special two-slash prefix. -/

/-- CPython `posixpath.normpath`. -/
def normpath (p : PyStr) : PyStr :=
  if p = [] then ['.']
  else
    let slashes : Nat :=
      if p.take 1 = ['/'] then
        if p.take 2 = ['/', '/'] ∧ p.take 3 ≠ ['/', '/', '/'] then 2 else 1
      else 0
    let comps := splitOnChar '/' p
    let newComps := comps.foldl (fun acc comp =>
      if comp = [] ∨ comp = ['.'] then acc
      else if comp ≠ ['.', '.'] ∨ (slashes = 0 ∧ acc = [])
              ∨ acc.getLast? = some ['.', '.'] then acc ++ [comp]
      else acc.dropLast) []
    let res := List.replicate slashes '/' ++ joinChar '/' newComps
    if res = [] then ['.'] else res

/-- Python `os.path.isabs` on POSIX. -/
def isabs (p : PyStr) : Bool := p.take 1 = ['/']

/-! ## `ModelDownloader.normalize_and_validate_path` (lines 559-631)

The function is split so that the post-`normpath` cleanup
(`replace('\\','/')`, `lstrip('/')`, `rstrip('/')`) has a name usable in
theorem statements. -/

/-- Lines 599-609: `os.path.normpath`, backslash-to-slash replacement and
stripping of leading/trailing slashes. -/
def postNorm (subdirectory : PyStr) : PyStr :=
  let normalized := normpath subdirectory
  let normalized := normalized.map (fun c => if c = '\\' then '/' else c)
  let normalized := normalized.dropWhile (fun c => c = '/')
  ((normalized.reverse.dropWhile (fun c => c = '/')).reverse)

/-- `ModelDownloader.normalize_and_validate_path`.  `ValueError` is
modelled as `Except.error` carrying the message the source formats. -/
def normalize_and_validate_path (subdirectory : PyStr) : Except PyStr PyStr :=
  if pyStrip subdirectory = [] then .ok ("checkpoints".data)
  else if isabs subdirectory then
    .error (("Invalid path: ".data ++ [squote] ++ subdirectory ++ [squote] ++
      ". Absolute paths are not allowed. Use relative paths only.".data))
  else if 2 ≤ subdirectory.length ∧ subdirectory.get? 1 = some ':' then
    .error (("Invalid path: ".data ++ [squote] ++ subdirectory ++ [squote] ++
      ". Absolute paths (including drive letters) are not allowed. Use relative paths only.".data))
  else if strContains subdirectory ("..".data) then
    .error (("Invalid path: ".data ++ [squote] ++ subdirectory ++ [squote] ++
      ". Parent directory references (..) are not allowed for security reasons.".data))
  else
    let normalized := postNorm subdirectory
    if normalized = [] then .ok ("checkpoints".data)
    else if strContains normalized ("..".data) then
      .error (("Invalid path: ".data ++ [squote] ++ subdirectory ++ [squote] ++
        ". Parent directory references (..) are not allowed for security reasons.".data))
    else if (splitOnChar '/' normalized).any (fun part => part = []) then
      .error (("Invalid path: ".data ++ [squote] ++ subdirectory ++ [squote] ++
        ". Empty path components are not allowed.".data))
    else .ok normalized

/-! ## The ledger (`models.ini` managed through `configparser`)

`configparser` keeps an ordered collection of uniquely-named sections,
each an ordered mapping of option keys to string values.  Re-assigning an
option overwrites the value in place; a new option is appended. -/

/-- One `configparser` section. -/
structure IniSection where
  name : PyStr
  opts : List (PyStr × PyStr)
deriving DecidableEq

/-- The parsed state of `models.ini`: an ordered list of sections. -/
abbrev ModelConfig := List IniSection

/-- `config.has_section(s)`. -/
def hasSection (cfg : ModelConfig) (s : PyStr) : Bool :=
  cfg.any (fun sec => sec.name = s)

/-- The section named `s`, when present (section names are unique in any
state `configparser` can produce). -/
def sectOf (cfg : ModelConfig) (s : PyStr) : Option IniSection :=
  cfg.find? (fun sec => sec.name = s)

/-- The value of option `k` inside a section. -/
def optValue (sec : IniSection) (k : PyStr) : Option PyStr :=
  (sec.opts.find? (fun p => p.1 = k)).map (fun p => p.2)

/-- `config.get(s, k)` when it succeeds, `none` when section or option is
missing; `config.has_option(s, k)` is its `isSome`. -/
def getOpt (cfg : ModelConfig) (s k : PyStr) : Option PyStr :=
  (sectOf cfg s).bind (fun sec => optValue sec k)

/-- Assignment of option `k` inside an option list: overwrite in place or
append. -/
def setKey (opts : List (PyStr × PyStr)) (k v : PyStr) : List (PyStr × PyStr) :=
  if opts.any (fun p => p.1 = k) then
    opts.map (fun p => if p.1 = k then (k, v) else p)
  else opts ++ [(k, v)]

/-- `config.set(s, k, v)` (the section is assumed present; `save_to_ini`
adds it first). -/
def setOpt (cfg : ModelConfig) (s k v : PyStr) : ModelConfig :=
  cfg.map (fun sec => if sec.name = s then ⟨sec.name, setKey sec.opts k v⟩ else sec)

/-- `config.add_section(s)`. -/
def addSection (cfg : ModelConfig) (s : PyStr) : ModelConfig :=
  cfg ++ [⟨s, []⟩]

/-! ## `ModelDownloader.save_to_ini` (lines 105-158) -/

/-- Line 126: `base_section = filename.replace('.', '_')`. -/
def sectionBase (filename : PyStr) : PyStr :=
  filename.map (fun c => if c = '.' then '_' else c)

/-- The candidate section identifiers tried by the `while` loop of
`save_to_ini`: the base name first, then `base_1`, `base_2`, ... -/
def candName (base : PyStr) : Nat → PyStr
  | 0 => base
  | Nat.succ n => base ++ '_' :: (Nat.repr (n + 1)).data

/-- The `while config.has_section(section_name)` loop of lines 128-134:
starting from candidate index `n`, return the first candidate that either
is not yet a section or already records this `url`.  The loop always
terminates in Python because the candidate names eventually leave the
finite set of existing sections; here the recursion carries `fuel`, and
`save_to_ini` passes `cfg.length + 1`, enough fuel that exhaustion can
only return a candidate the loop never got to inspect. -/
def findSectionName (cfg : ModelConfig) (base url : PyStr) : Nat → Nat → PyStr
  | 0, n => candName base n
  | Nat.succ fuel, n =>
    if hasSection cfg (candName base n) then
      if getOpt cfg (candName base n) ("url".data) = some url then candName base n
      else findSectionName cfg base url fuel (n + 1)
    else candName base n

/-- The section identifier `save_to_ini` writes to. -/
def saveTargetName (cfg : ModelConfig) (url filename : PyStr) : PyStr :=
  findSectionName cfg (sectionBase filename) url (cfg.length + 1) 0

/-- Python `os.path.relpath(p, base)` restricted to what `save_to_ini`
feeds it: a path that lies under `base`, for which `relpath` just removes
the `base ++ "/"` prefix (other inputs are returned unchanged; the `..`
construction of the general function is never exercised by the code). -/
def relpath (p base : PyStr) : PyStr :=
  if (base ++ ['/']).isPrefixOf p then p.drop (base.length + 1) else p

/-- `ModelDownloader.save_to_ini`.  The timestamp is a parameter (the
code formats `datetime.now()`); `basePath` is `self.base_path`. -/
def save_to_ini (cfg : ModelConfig) (url subdirectory filename filepath expected_hash basePath ts : PyStr) :
    ModelConfig :=
  let sec := saveTargetName cfg url filename
  let cfg1 := if hasSection cfg sec then cfg else addSection cfg sec
  let cfg2 := setOpt cfg1 sec ("url".data) url
  let cfg3 := setOpt cfg2 sec ("subdirectory".data) subdirectory
  let cfg4 := setOpt cfg3 sec ("filename".data) filename
  let cfg5 := setOpt cfg4 sec ("filepath".data) (relpath filepath basePath)
  let cfg6 := if expected_hash ≠ [] then setOpt cfg5 sec ("hash".data) expected_hash else cfg5
  setOpt cfg6 sec ("timestamp".data) ts

/-! ## Verifier (`verify_hash`, lines 803-818)

Line 808 calls `self.calculate_sha256(filepath)`, but no `def` of
`calculate_sha256` exists anywhere in the file: its docstring and body
sit unreachable inside `download_directory` after the `return` at line
790 (lines 792-801), so the class has no such attribute and Python
raises `AttributeError` at the call.  The embedding models exceptions
with `Except`. -/

/-- A Python exception, as far as the model needs to distinguish them. -/
inductive PyExn where
  | attributeError (msg : PyStr)
  | valueError (msg : PyStr)
deriving DecidableEq

/-- Attribute lookup of `self.calculate_sha256` on `ModelDownloader` as
written: the method is not defined (its `def` line is missing from the
source), so the lookup raises. -/
def calculate_sha256_lookup : Except PyExn (Option (List Nat) → Option PyStr) :=
  .error (.attributeError
    ("ModelDownloader object has no attribute calculate_sha256".data))

/-- `ModelDownloader.verify_hash` as written.  The file is modelled as
`Option (List Nat)` — `none` when it cannot be opened or read.  With an
empty expected hash it returns `True` before touching the file; with a
non-empty one it evaluates `self.calculate_sha256(...)`, which raises. -/
def verify_hash (file : Option (List Nat)) (expected_hash : PyStr) : Except PyExn Bool :=
  if expected_hash = [] then .ok true
  else do
    let calcFn ← calculate_sha256_lookup
    match calcFn file with
    | none => .ok false
    | some actual => .ok (decide (actual = expected_hash))

/-! ## TransferEngine (`download_file`, lines 820-886) -/

/-- The observable outcome of one `requests.get` + streaming-write
attempt: the request itself fails (network error or, after
`raise_for_status()`, a non-success HTTP status) before anything is
written, or the body write fails midway leaving a partial file, or the
transfer completes. -/
inductive TransferEv where
  | netFail
  | httpFail
  | writeFail
  | ok
deriving DecidableEq

/-- `str(e)` of the exception each failing outcome raises (opaque text
from `requests`/the OS; the model only needs it to be a definite
string). -/
def transferErrMsg : TransferEv → PyStr
  | .netFail => "ConnectionError".data
  | .httpFail => "HTTPError".data
  | .writeFail => "OSError".data
  | .ok => []

/-- `TransferEv.isFail`: every outcome except a completed transfer. -/
def TransferEv.isFail : TransferEv → Bool
  | .ok => false
  | _ => true

/-- Remove a path from the set of existing files (`os.remove` guarded by
`os.path.exists`). -/
def removePath (fs : List PyStr) (p : PyStr) : List PyStr :=
  fs.filter (fun q => q ≠ p)

/-- Create/overwrite a file at a path (`open(p, 'wb')`). -/
def addPath (fs : List PyStr) (p : PyStr) : List PyStr :=
  if fs.contains p then fs else fs ++ [p]

/-- `ModelDownloader.download_file`.  `cdn` is the filename suggested by
a `Content-Disposition` header, when the response carries one; the
substitution at lines 850-858 only fires for CivitAI URLs whose
requested `filepath` has an empty basename.  A network or HTTP-status
failure happens before that substitution, so its cleanup (lines
884-885) removes the originally requested path; a write failure happens
after it and removes the realized path.  On any failure the function
deletes whatever exists at that path and re-raises. -/
def download_file (ev : TransferEv) (urlType : PyStr) (cdn : Option PyStr)
    (filepath : PyStr) (fs : List PyStr) : Except PyStr PyStr × List PyStr :=
  match ev with
  | .netFail => (.error (transferErrMsg .netFail), removePath fs filepath)
  | .httpFail => (.error (transferErrMsg .httpFail), removePath fs filepath)
  | _ =>
    let realized :=
      match cdn with
      | some suggested =>
        if urlType = "civitai".data ∧ basename filepath = [] then
          dirname filepath ++ '/' :: suggested
        else filepath
      | none => filepath
    match ev with
    | .writeFail => (.error (transferErrMsg .writeFail), removePath (addPath fs realized) realized)
    | _ => (.ok realized, addPath fs realized)

/-! ## RetryingFetcher (`download_model` retry loop, lines 928-998) -/

/-- The result of `download_model`/`download_directory`: the returned
`(status, path-or-paths)` pair plus the final ledger and filesystem and
the number of `download_file` invocations that occurred (the attempt
counter the spec reasons about). -/
structure DmResult where
  status : PyStr
  filePath : PyStr
  dirPaths : List PyStr
  ledger : ModelConfig
  fs : List PyStr
  downloads : Nat
deriving DecidableEq

/-- Line 994: `f"Error: Download failed after {max_retries} attempts - {error_msg}"`. -/
def failMsg (k : Nat) (e : PyStr) : PyStr :=
  "Error: Download failed after ".data ++ (Nat.repr k).data ++ " attempts - ".data ++ e

/-- `str(e)` of a modelled exception. -/
def pyExnText : PyExn → PyStr
  | .attributeError m => m
  | .valueError m => m

/-- The `for attempt in range(1, max_retries + 1)` loop of
`download_model` (lines 928-998), one recursion step per remaining
attempt; `rem + 1` attempts remain, `i` is the current attempt number,
`dls` counts `download_file` calls so far.  Every exception raised
inside the body — including the `AttributeError` that `verify_hash`
raises whenever a non-empty hash is given — is caught by the `except` at
line 987 and either retried or converted into the final failure
message.  When an existing file fails verification it is deleted and the
download proceeds within the same attempt (lines 953-957). -/
def downloadAttempts (env : Nat → TransferEv) (cdn : Option PyStr)
    (urlType url subdirectory filename filepath expected_hash basePath ts : PyStr)
    (k : Nat) : Nat → Nat → List PyStr → ModelConfig → Nat → DmResult
  | 0, _, fs, ledger, dls =>
    -- the loop finished without returning (only reachable when max_retries = 0)
    ⟨"Error: Unknown error occurred".data, [], [], ledger, fs, dls⟩
  | Nat.succ rem, i, fs, ledger, dls =>
    let proceed : List PyStr → DmResult := fun fs1 =>
      -- line 957: download_file, then lines 959-985
      match download_file (env i) urlType cdn filepath fs1 with
      | (.error e, fs2) =>
        if rem = 0 then ⟨failMsg k e, [], [], ledger, fs2, dls + 1⟩
        else downloadAttempts env cdn urlType url subdirectory filename filepath
          expected_hash basePath ts k rem (i + 1) fs2 ledger (dls + 1)
      | (.ok dpath, fs2) =>
        if expected_hash = [] then
          -- no hash requested → success (lines 976-985)
          ⟨"✓ Successfully downloaded: ".data ++ basename dpath, dpath, [],
            save_to_ini ledger url subdirectory filename dpath expected_hash basePath ts,
            fs2, dls + 1⟩
        else
          -- line 962: verify_hash raises AttributeError (caught at line 987);
          -- its mismatch/success branches are structurally present but dead
          match verify_hash (some []) expected_hash with
          | .error e =>
            if rem = 0 then ⟨failMsg k (pyExnText e), [], [], ledger, fs2, dls + 1⟩
            else downloadAttempts env cdn urlType url subdirectory filename filepath
              expected_hash basePath ts k rem (i + 1) fs2 ledger (dls + 1)
          | .ok true =>
            ⟨"✓ Successfully downloaded: ".data ++ basename dpath, dpath, [],
              save_to_ini ledger url subdirectory filename dpath expected_hash basePath ts,
              fs2, dls + 1⟩
          | .ok false =>
            if rem = 0 then
              ⟨"Error: Hash verification failed after ".data ++ (Nat.repr k).data ++
                " attempts".data, [], [], ledger, removePath fs2 dpath, dls + 1⟩
            else downloadAttempts env cdn urlType url subdirectory filename filepath
              expected_hash basePath ts k rem (i + 1) (removePath fs2 dpath) ledger (dls + 1)
    if fs.contains filepath then
      -- lines 935-954: existing-file check and hash verification
      match verify_hash (some []) expected_hash with
      | .ok true =>
        -- existing file verified → record provenance and return (lines 939-951)
        ⟨"✓ File already exists and verified: ".data ++ basename filepath, filepath, [],
          save_to_ini ledger url subdirectory filename filepath expected_hash basePath ts,
          fs, dls⟩
      | .ok false => proceed (removePath fs filepath)
      | .error e =>
        -- exception → caught by the except at line 987, no download this attempt
        if rem = 0 then ⟨failMsg k (pyExnText e), [], [], ledger, fs, dls⟩
        else downloadAttempts env cdn urlType url subdirectory filename filepath
          expected_hash basePath ts k rem (i + 1) fs ledger dls
    else proceed fs

/-! ## URL classification and filename extraction (lines 318-466) -/

/-- `ModelDownloader.detect_url_type`. -/
def detect_url_type (url : PyStr) : PyStr :=
  if strContains url ("huggingface.co".data) then
    if strContains url ("/tree/".data) then "huggingface_directory".data
    else if strContains url ("/resolve/".data) ∨ strContains url ("/blob/".data) then
      "huggingface".data
    else "huggingface".data
  else if strContains url ("civitai.com".data) then "civitai".data
  else "unknown".data

/-- The regex `r'/resolve/[^/]+/(.+?)(?:\x7c?|$)'` of
`extract_filename_from_url` — more precisely
`/resolve/`, a non-empty slash-free revision, `/`, then a lazy capture up
to the first `?` or the end: after the first `/resolve/`, split off the
revision at the next `/` and cut the remainder at the first `?`.  Exact
for URLs whose first `/resolve/` is followed by a non-empty revision and
whose file part is non-empty before any `?` — every URL the downloader
builds or the scenarios exercise; regex backtracking on other inputs is
not reproduced. -/
def hfResolveMatch (url : PyStr) : Option PyStr :=
  match splitFirst ("/resolve/".data) url with
  | none => none
  | some (_, after) =>
    match splitFirst ['/'] after with
    | none => none
    | some (rev, rest) =>
      if rev = [] then none
      else
        let grp := match splitFirst ['?'] rest with
          | some r => r.1
          | none => rest
        if grp = [] then none else some grp

/-- `os.path.basename(urlparse(url).path)`, simplified to the
forward-slash URLs concerned: drop the scheme-and-host prefix, cut at
the first `?` or `#`, take the last `/`-component. -/
def fallbackBasename (url : PyStr) : PyStr :=
  let afterScheme := match splitFirst ("://".data) url with
    | some r => r.2
    | none => url
  let path := match splitFirst ['/'] afterScheme with
    | some r => '/' :: r.2
    | none => []
  let path := match splitFirst ['?'] path with
    | some r => r.1
    | none => path
  let path := match splitFirst ['#'] path with
    | some r => r.1
    | none => path
  basename path

/-- `ModelDownloader.extract_filename_from_url`.  For CivitAI URLs the
code queries the CivitAI API (`get_civitai_filename`); that network
result is the `civName` parameter (`none` when the API yields no
name). -/
def extract_filename_from_url (url urlType : PyStr) (civName : Option PyStr) : PyStr :=
  if urlType = "huggingface".data then
    match hfResolveMatch url with
    | some grp => lastComp grp
    | none => fallbackBasename url
  else if urlType = "civitai".data then
    match civName with
    | some n => n
    | none => fallbackBasename url
  else fallbackBasename url

/-- `ModelDownloader.parse_huggingface_directory_url`: the regex
`huggingface\.co/([^/]+/[^/]+)/tree/([^/]+)(?:/(.+))?` yielding
`(repo_id, revision, directory_path)`. -/
def parse_huggingface_directory_url (url : PyStr) : Option (PyStr × PyStr × PyStr) :=
  match splitFirst ("huggingface.co/".data) url with
  | none => none
  | some (_, after) =>
    match splitOnChar '/' after with
    | user :: repo :: tpart :: rev :: parts =>
      if user ≠ [] ∧ repo ≠ [] ∧ tpart = "tree".data ∧ rev ≠ [] then
        some (user ++ '/' :: repo, rev, joinChar '/' parts)
      else none
    | _ => none

/-! ## The single-file path of `download_model` (lines 888-998) -/

/-- `download_model` after URL classification, for the non-directory URL
types: subdirectory validation, filename resolution, target-path
construction and the retry loop. -/
def download_model_file (env : Nat → TransferEv) (cdn : Option PyStr) (civName : Option PyStr)
    (urlType url subdirectory filename expected_hash : PyStr) (k : Nat)
    (ledger : ModelConfig) (fs : List PyStr) (basePath ts : PyStr) : DmResult :=
  match normalize_and_validate_path subdirectory with
  | .error e => ⟨"Error: ".data ++ e, [], [], ledger, fs, 0⟩
  | .ok normalized_subdir =>
    let fn0 := if filename = [] then extract_filename_from_url url urlType civName else filename
    let fn := if fn0 = [] then "downloaded_model.safetensors".data else fn0
    let target_dir := basePath ++ '/' :: normalized_subdir
    let filepath := target_dir ++ '/' :: fn
    downloadAttempts env cdn urlType url subdirectory fn filepath expected_hash basePath ts
      k k 1 fs ledger 0

/-! ## `check_directory_structure_changed` (lines 350-399) -/

/-- The digit run of a decimal literal, most significant first; `none`
when empty or containing a non-digit. -/
def digitsToNat (ds : PyStr) : Option Nat :=
  if ds = [] then none
  else ds.foldl (fun acc c =>
    acc.bind (fun a => if c.isDigit then some (a * 10 + (c.toNat - 48)) else none))
    (some 0)

/-- CPython `int(s)` for base 10: surrounding whitespace stripped, an
optional sign, then decimal digits; `none` models the `ValueError` it
otherwise raises. -/
def pyInt? (s : PyStr) : Option Int :=
  match pyStrip s with
  | '-' :: ds => (digitsToNat ds).map (fun n => -(n : Int))
  | '+' :: ds => (digitsToNat ds).map (fun n => (n : Int))
  | ds => (digitsToNat ds).map (fun n => (n : Int))

/-- `ModelDownloader.check_directory_structure_changed`.  The `models.ini`
on disk is passed as `none` when the file does not exist or
`config.read` fails (both make the function return `True`).  A matching
section whose recorded `file_count` does not parse as an integer makes
`int(...)` raise `ValueError`, which the function does not catch. -/
def check_directory_structure_changed (ini : Option ModelConfig)
    (url subdirectory : PyStr) (current_files : List PyStr)
    (update_ini_enabled : Bool) : Except PyExn Bool :=
  if ¬update_ini_enabled then .ok false
  else
    match ini with
    | none => .ok true
    | some cfg =>
      match cfg.find? (fun sec => optValue sec ("url".data) = some url) with
      | none => .ok true
      | some sec =>
        let fcStr := (optValue sec ("file_count".data)).getD ("0".data)
        match pyInt? fcStr with
        | none => .error (.valueError ("invalid literal for int".data))
        | some old_file_count =>
          if old_file_count ≠ (current_files.length : Int) then .ok true
          else if (optValue sec ("subdirectory".data)).getD [] ≠ subdirectory then .ok true
          else .ok false

/-! ## `download_directory` (lines 633-790) -/

/-- Lines 648-651: parse the comma-separated exclusion list. -/
def parseExcludeList (exclude_files : PyStr) : List PyStr :=
  if pyStrip exclude_files = [] then []
  else ((splitOnChar ',' exclude_files).map pyStrip).filter (fun f => f ≠ [])

/-- Lines 709-718: the path of a repository file relative to the
requested directory. -/
def relativeInDir (directory_path p : PyStr) : PyStr :=
  if directory_path ≠ [] then
    if (directory_path ++ ['/']).isPrefixOf p then p.drop (directory_path.length + 1)
    else if directory_path.isPrefixOf p then p.drop directory_path.length
    else p
  else p

/-- Per-file accumulator of the `download_directory` loop. -/
structure DirAcc where
  downloaded : List PyStr
  skipped : List PyStr
  failed : List PyStr
  ledger : ModelConfig
  fs : List PyStr
  downloads : Nat

/-- One iteration of the per-file loop of `download_directory`
(lines 702-766).  `fenv p` gives the transfer outcomes for repository
file `p`.  The constructed `file_url` always contains `huggingface.co`
and `/resolve/`, so its `detect_url_type` re-classification inside the
recursive `download_model` call reaches the single-file path whenever
the repository path contains no `/tree/`; listings are assumed (and in
the theorems chosen) free of such paths, which would re-enter the
directory flow. -/
def dirStep (fenv : PyStr → Nat → TransferEv) (repo_id revision directory_path
    subdirectory : PyStr) (k : Nat) (basePath ts : PyStr) (acc : DirAcc) (p : PyStr) : DirAcc :=
  let filename := basename p
  let relative := relativeInDir directory_path p
  let parts := splitOnChar '/' (dirname relative)
  let file_subdirectory :=
    match parts with
    | [] => subdirectory
    | h :: _ => if h ≠ [] then subdirectory ++ '/' :: joinChar '/' parts else subdirectory
  match normalize_and_validate_path file_subdirectory with
  | .error _ => { acc with failed := acc.failed ++ [p] }
  | .ok normalized_subdir =>
    let target_filepath := basePath ++ '/' :: normalized_subdir ++ '/' :: filename
    if acc.fs.contains target_filepath then { acc with skipped := acc.skipped ++ [p] }
    else
      let file_url := "https://huggingface.co/".data ++ repo_id ++ "/resolve/".data ++
        revision ++ '/' :: p
      let r := download_model_file (fenv p) none none (detect_url_type file_url) file_url
        file_subdirectory filename [] k acc.ledger acc.fs basePath ts
      if r.filePath ≠ [] ∧ ¬strContains r.status ("Error".data) then
        { acc with
          downloaded := acc.downloaded ++ [r.filePath]
          ledger := r.ledger
          fs := r.fs
          downloads := acc.downloads + r.downloads }
      else if strContains r.status ("already exists".data) then
        { acc with
          skipped := acc.skipped ++ [p]
          ledger := r.ledger
          fs := r.fs
          downloads := acc.downloads + r.downloads }
      else
        { acc with
          failed := acc.failed ++ [p]
          ledger := r.ledger
          fs := r.fs
          downloads := acc.downloads + r.downloads }

/-- `ModelDownloader.download_directory`.  `listing` is the flattened
recursive file enumeration `get_directory_files` obtains from the
HuggingFace tree API (an external input to the engine). -/
def download_directory (fenv : PyStr → Nat → TransferEv) (listing : List PyStr)
    (url subdirectory exclude_files : PyStr) (k : Nat)
    (ledger : ModelConfig) (fs : List PyStr) (basePath ts : PyStr) : DmResult :=
  let exclude_list := parseExcludeList exclude_files
  match parse_huggingface_directory_url url with
  | none => ⟨"Error: Invalid HuggingFace directory URL".data, [], [], ledger, fs, 0⟩
  | some (repo_id, revision, directory_path) =>
    if listing = [] then ⟨"Error: No files found in directory".data, [], [], ledger, fs, 0⟩
    else
      let files := listing.filter (fun p => ¬exclude_list.contains (basename p))
      if files = [] then ⟨"Error: All files were excluded".data, [], [], ledger, fs, 0⟩
      else
        let acc := files.foldl
          (dirStep fenv repo_id revision directory_path subdirectory k basePath ts)
          ⟨[], [], [], ledger, fs, 0⟩
        let status :=
          if acc.failed ≠ [] then
            "⚠ Directory download completed with errors: ".data ++
              (Nat.repr acc.downloaded.length).data ++ " downloaded, ".data ++
              (Nat.repr acc.skipped.length).data ++ " skipped, ".data ++
              (Nat.repr acc.failed.length).data ++ " failed".data
          else
            "✓ Directory download completed: ".data ++
              (Nat.repr acc.downloaded.length).data ++ " downloaded, ".data ++
              (Nat.repr acc.skipped.length).data ++ " skipped".data
        ⟨status, [], acc.downloaded, acc.ledger, acc.fs, acc.downloads⟩

/-- `ModelDownloader.download_model`: URL validation, classification and
dispatch (lines 888-926). -/
def download_model (env : Nat → TransferEv) (cdn : Option PyStr) (civName : Option PyStr)
    (fenv : PyStr → Nat → TransferEv) (listing : List PyStr)
    (url subdirectory filename exclude_files expected_hash : PyStr) (k : Nat)
    (ledger : ModelConfig) (fs : List PyStr) (basePath ts : PyStr) : DmResult :=
  if url = [] then ⟨"Error: URL is empty".data, [], [], ledger, fs, 0⟩
  else
    let urlType := detect_url_type url
    if urlType = "unknown".data then
      ⟨"Error: Unsupported URL. Only HuggingFace and CivitAI are supported.".data,
        [], [], ledger, fs, 0⟩
    else if urlType = "huggingface_directory".data then
      download_directory fenv listing url subdirectory exclude_files k ledger fs basePath ts
    else
      download_model_file env cdn civName urlType url subdirectory filename expected_hash
        k ledger fs basePath ts

/-! ## `HuggingFaceDirectoryDownloader.download_directory` per-file retry
loop (lines 1372-1410) -/

/-- The inner `for attempt in range(1, max_retries + 1)` loop that
transfers one file of a repository mirror.  A request/status failure
happens before the file is opened; a write failure leaves a partial file
at `target` which is only removed when the final attempt has failed
(lines 1407-1410) — intermediate attempts reopen the file with `'wb'`.
Returns the success flag and the resulting filesystem. -/
def hfFileAttempts (env : Nat → TransferEv) (target : PyStr) :
    Nat → Nat → List PyStr → Bool × List PyStr
  | 0, _, fs => (false, fs)
  | Nat.succ rem, i, fs =>
    match env i with
    | .ok => (true, addPath fs target)
    | .netFail =>
      if rem = 0 then (false, removePath fs target)
      else hfFileAttempts env target rem (i + 1) fs
    | .httpFail =>
      if rem = 0 then (false, removePath fs target)
      else hfFileAttempts env target rem (i + 1) fs
    | .writeFail =>
      if rem = 0 then (false, removePath (addPath fs target) target)
      else hfFileAttempts env target rem (i + 1) (addPath fs target)

/-! ## Basic lemmas about the string model -/

theorem splitOnChar_ne_nil (sep : Char) (s : PyStr) : splitOnChar sep s ≠ [] := by
  cases s with
  | nil => simp [splitOnChar]
  | cons c rest =>
    unfold splitOnChar
    cases h : splitOnChar sep rest with
    | nil => simp
    | cons a t => by_cases hc : c = sep <;> simp [hc]

theorem splitOnChar_struct (sep : Char) (s : PyStr) :
    ∃ h t, splitOnChar sep s = h :: t ∧ h <+: s ∧ ∀ c ∈ t, c <:+: s := by
  induction s with
  | nil => exact ⟨[], [], rfl, List.nil_prefix, by simp⟩
  | cons a s ih =>
    obtain ⟨h, t, heq, hpre, hinf⟩ := ih
    by_cases hc : a = sep
    · refine ⟨[], h :: t, by simp [splitOnChar, heq, hc], List.nil_prefix, ?_⟩
      intro c hcmem
      rcases List.mem_cons.mp hcmem with rfl | hct
      · exact List.infix_cons hpre.isInfix
      · exact List.infix_cons (hinf c hct)
    · refine ⟨a :: h, t, by simp [splitOnChar, heq, hc], ?_, ?_⟩
      · obtain ⟨r, hr⟩ := hpre
        exact ⟨r, by simp [hr]⟩
      · intro c hct
        exact List.infix_cons (hinf c hct)

theorem mem_splitOnChar_infix {sep : Char} {s c : PyStr}
    (hc : c ∈ splitOnChar sep s) : c <:+: s := by
  obtain ⟨h, t, heq, hpre, hinf⟩ := splitOnChar_struct sep s
  rw [heq] at hc
  rcases List.mem_cons.mp hc with rfl | hct
  · exact hpre.isInfix
  · exact hinf c hct

theorem head_slash_mem_splitOnChar {s : PyStr} (h : s.take 1 = ['/']) :
    [] ∈ splitOnChar '/' s := by
  cases s with
  | nil => simp at h
  | cons c rest =>
    simp [List.take] at h
    subst h
    unfold splitOnChar
    cases hrec : splitOnChar '/' rest with
    | nil => exact absurd hrec (splitOnChar_ne_nil _ _)
    | cons a t => simp

theorem pyStrip_eq_nil_all_space {s : PyStr} (h : pyStrip s = []) :
    ∀ c ∈ s, isPySpace c = true := by
  unfold pyStrip at h
  rw [List.reverse_eq_nil_iff, List.dropWhile_eq_nil_iff] at h
  intro c hc
  have hsplit := List.takeWhile_append_dropWhile isPySpace s
  rw [← hsplit] at hc
  rcases List.mem_append.mp hc with htake | hdrop
  · exact List.mem_takeWhile_imp htake
  · exact h c (List.mem_reverse.mpr hdrop)

theorem pyStrip_ne_nil_of_mem {s : PyStr} {c : Char} (hc : c ∈ s)
    (hns : isPySpace c = false) : pyStrip s ≠ [] := by
  intro h
  rw [pyStrip_eq_nil_all_space h c hc] at hns
  cases hns

/-! ## C1 — path validation

The claim asserts that (a) `..`-containing, absolute and drive-letter
subdirectories are rejected, and (b) *every other* non-empty relative
subdirectory resolves to a safe relative path.  Part (b) fails: an input
whose backslash canonicalization creates an empty path component —
`"a\\b"` with two consecutive backslashes — is relative, non-empty and
free of `..`, yet is rejected with the empty-path-component
`ValueError`.  The amended claim adds that failure mode to the rejection
set; everything the code then returns is a safe strict descendant. -/

/-- C1 (counterexample): `"a\\b"` (two consecutive backslashes) is
non-empty, relative, without `..` and without a drive-letter, yet
`normalize_and_validate_path` raises `ValueError` on it (its
backslashes normalize to `/`-separators enclosing an empty path
component), contradicting the claim that every such input resolves
successfully. -/
theorem c1_counterexample :
    (normalize_and_validate_path ("a\\\\b".data)).isOk = false ∧
    strContains ("a\\\\b".data) ("..".data) = false ∧
    isabs ("a\\\\b".data) = false ∧
    ("a\\\\b".data).get? 1 ≠ some ':' ∧
    pyStrip ("a\\\\b".data) ≠ [] := by decide

/-- C1 (amended): `normalize_and_validate_path` rejects every
subdirectory containing `..`, every absolute subdirectory, and every
drive-letter subdirectory — and additionally every input whose
normalized form contains an empty path component; every value it
returns successfully is non-empty, relative, and all its `/`-components
are non-empty and distinct from `..` (hence joining it under the
trusted root lands strictly below the root). -/
theorem c1_path_validation :
    (∀ s, strContains s ("..".data) = true →
      (normalize_and_validate_path s).isOk = false) ∧
    (∀ s, isabs s = true → (normalize_and_validate_path s).isOk = false) ∧
    (∀ s, 2 ≤ s.length → s.get? 1 = some ':' →
      (normalize_and_validate_path s).isOk = false) ∧
    (∀ s r, normalize_and_validate_path s = .ok r →
      r ≠ [] ∧ r.take 1 ≠ ['/'] ∧
      ∀ c ∈ splitOnChar '/' r, c ≠ [] ∧ c ≠ "..".data) := by
  refine ⟨?_, ?_, ?_, ?_⟩
  · intro s h
    have hdot : ('.' : Char) ∈ s := by
      have hinf : ("..".data : PyStr) <:+: s := by
        simpa [strContains] using h
      exact hinf.subset (by decide)
    have hstrip : pyStrip s ≠ [] := pyStrip_ne_nil_of_mem hdot (by decide)
    unfold normalize_and_validate_path
    split_ifs with h1 h2 h3 h4 <;> simp_all [Except.isOk, Except.toBool]
  · intro s habs
    have hslash : ('/' : Char) ∈ s := by
      unfold isabs at habs
      cases s with
      | nil => simp at habs
      | cons c rest =>
        simp [List.take] at habs
        simp [habs]
    have hstrip : pyStrip s ≠ [] := pyStrip_ne_nil_of_mem hslash (by decide)
    unfold normalize_and_validate_path
    split_ifs with h1 h2 <;> simp_all [Except.isOk, Except.toBool]
  · intro s hlen hcolon
    have hmem : (':' : Char) ∈ s := by
      have := List.get?_mem hcolon
      exact this
    have hstrip : pyStrip s ≠ [] := pyStrip_ne_nil_of_mem hmem (by decide)
    unfold normalize_and_validate_path
    split_ifs with h1 h2 h3 <;> simp_all [Except.isOk, Except.toBool]
  · intro s r hok
    unfold normalize_and_validate_path at hok
    by_cases h1 : pyStrip s = []
    · rw [if_pos h1] at hok
      cases hok
      exact ⟨by decide, by decide, by decide⟩
    · rw [if_neg h1] at hok
      by_cases h2 : isabs s = true
      · rw [if_pos h2] at hok
        exact Except.noConfusion hok
      · rw [if_neg h2] at hok
        by_cases h3 : 2 ≤ s.length ∧ s.get? 1 = some ':'
        · rw [if_pos h3] at hok
          exact Except.noConfusion hok
        · rw [if_neg h3] at hok
          by_cases h4 : strContains s ("..".data) = true
          · rw [if_pos h4] at hok
            exact Except.noConfusion hok
          · rw [if_neg h4] at hok
            simp only [] at hok
            by_cases h5 : postNorm s = []
            · rw [if_pos h5] at hok
              cases hok
              exact ⟨by decide, by decide, by decide⟩
            · rw [if_neg h5] at hok
              by_cases h6 : strContains (postNorm s) ("..".data) = true
              · rw [if_pos h6] at hok
                exact Except.noConfusion hok
              · rw [if_neg h6] at hok
                by_cases h7 : ((splitOnChar '/' (postNorm s)).any (fun part => part = [])) = true
                · rw [if_pos h7] at hok
                  exact Except.noConfusion hok
                · rw [if_neg h7] at hok
                  cases hok
                  refine ⟨h5, ?_, ?_⟩
                  · intro htake
                    have hmem : [] ∈ splitOnChar '/' (postNorm s) :=
                      head_slash_mem_splitOnChar htake
                    have : ((splitOnChar '/' (postNorm s)).any (fun part => part = [])) = true := by
                      simp [List.any_eq_true]
                      exact hmem
                    exact h7 this
                  · intro c hc
                    constructor
                    · intro hceq
                      subst hceq
                      have : ((splitOnChar '/' (postNorm s)).any (fun part => part = [])) = true := by
                        simp [List.any_eq_true]
                        exact hc
                      exact h7 this
                    · intro hceq
                      subst hceq
                      have hinf : ("..".data : PyStr) <:+: postNorm s := mem_splitOnChar_infix hc
                      have : strContains (postNorm s) ("..".data) = true := by
                        simp [strContains]
                        exact hinf
                      exact h6 this

/-- C1 (witness): the rejection clauses at `"../x"`, `"/abs"`, `"C:/x"`
and the success shape at `"loras/SDXL"`. -/
theorem c1_path_validation_witness :
    (normalize_and_validate_path ("../x".data)).isOk = false ∧
    (normalize_and_validate_path ("/abs".data)).isOk = false ∧
    (normalize_and_validate_path ("C:/x".data)).isOk = false ∧
    (("loras/SDXL".data : PyStr) ≠ [] ∧ ("loras/SDXL".data : PyStr).take 1 ≠ ['/'] ∧
      ∀ c ∈ splitOnChar '/' ("loras/SDXL".data), c ≠ [] ∧ c ≠ "..".data) := by
  refine ⟨?_, ?_, ?_, ?_⟩
  · exact c1_path_validation.1 ("../x".data) (by decide)
  · exact c1_path_validation.2.1 ("/abs".data) (by decide)
  · exact c1_path_validation.2.2.1 ("C:/x".data) (by decide) (by decide)
  · exact c1_path_validation.2.2.2 ("loras/SDXL".data) ("loras/SDXL".data) (by rfl)

/-! ## C2 — inputs that normalize to the empty path

The claim asserts such inputs are *rejected*.  The code instead returns
the default segment: line 612-613 reads `if not normalized: return
"checkpoints"`.  A lone backslash is exactly the claim's own example —
non-empty before normalization, empty after — and it resolves to
`checkpoints`. -/

/-- C2 (counterexample): the input `"\"` (one backslash) is non-empty
and non-blank before normalization and empty after it, yet
`normalize_and_validate_path` returns the default segment
`"checkpoints"` instead of failing with `ValueError`. -/
theorem c2_counterexample :
    normalize_and_validate_path ("\\".data) = .ok ("checkpoints".data) ∧
    ("\\".data : PyStr) ≠ [] ∧ pyStrip ("\\".data) ≠ [] ∧
    postNorm ("\\".data) = [] := by
  exact ⟨rfl, by decide, by decide, rfl⟩

/-- C2 (amended): empty or whitespace-only input resolves to the default
segment `"checkpoints"`; and an input that passes the absolute-path,
drive-letter and `..` checks but whose normalization yields the empty
path is *also* mapped to `"checkpoints"` rather than rejected. -/
theorem c2_empty_normalization :
    (∀ s, pyStrip s = [] → normalize_and_validate_path s = .ok ("checkpoints".data)) ∧
    (∀ s, isabs s = false → ¬(2 ≤ s.length ∧ s.get? 1 = some ':') →
      strContains s ("..".data) = false → postNorm s = [] →
      normalize_and_validate_path s = .ok ("checkpoints".data)) := by
  constructor
  · intro s h1
    unfold normalize_and_validate_path
    rw [if_pos h1]
  · intro s h2 h3 h4 h5
    unfold normalize_and_validate_path
    by_cases h1 : pyStrip s = []
    · rw [if_pos h1]
    · rw [if_neg h1, if_neg (by simp [h2]), if_neg h3, if_neg (by simp [h4])]
      simp only []
      rw [if_pos h5]

/-- C2 (witness): the amended behaviour at the blank input `"  "` and at
the lone backslash. -/
theorem c2_empty_normalization_witness :
    normalize_and_validate_path ("  ".data) = .ok ("checkpoints".data) ∧
    normalize_and_validate_path ("\\".data) = .ok ("checkpoints".data) := by
  constructor
  · exact c2_empty_normalization.1 ("  ".data) (by decide)
  · exact c2_empty_normalization.2 ("\\".data) (by decide) (by decide) (by decide) (by rfl)

/-! ## C4 — `verify_hash` error handling

The claim (and section 4.3 of the spec) says failure to open or read the
file makes `verify` return `False` rather than raising.  That is what
the orphaned `calculate_sha256` body (lines 792-801) would do — it
catches every exception and returns `None`, which `verify_hash` maps to
`False`.  But the `def calculate_sha256(self, ...)` line itself is
missing from the class: the docstring and body sit unreachable inside
`download_directory` after its `return` at line 790.  Consequently
`self.calculate_sha256(filepath)` at line 808 raises `AttributeError`
for *every* call with a non-empty expected hash — readable file or not —
and `verify_hash` propagates it. -/

/-- C4 (code bug): with any non-empty expected digest, `verify_hash`
raises `AttributeError` (the method `calculate_sha256` it calls is
nowhere defined) instead of returning a boolean — both on an unreadable
file and on a readable one; only the empty-digest short-circuit
returns. -/
theorem c4_verify_hash_raises :
    verify_hash none ("deadbeef".data) =
      .error (.attributeError
        ("ModelDownloader object has no attribute calculate_sha256".data)) ∧
    verify_hash (some [0, 1, 2]) ("deadbeef".data) =
      .error (.attributeError
        ("ModelDownloader object has no attribute calculate_sha256".data)) ∧
    verify_hash none [] = .ok true := ⟨rfl, rfl, rfl⟩

/-! ## C5 — deletion of the destination on transfer failure -/

theorem mem_removePath {fs : List PyStr} {p q : PyStr} :
    q ∈ removePath fs p ↔ q ∈ fs ∧ q ≠ p := by
  simp [removePath, List.mem_filter]

theorem contains_removePath_self (fs : List PyStr) (p : PyStr) :
    (removePath fs p).contains p = false := by
  simp [List.elem_eq_mem, mem_removePath]

theorem not_mem_removePath_self (fs : List PyStr) (p : PyStr) :
    p ∉ removePath fs p := by
  simp [mem_removePath]

theorem removePath_of_not_mem {fs : List PyStr} {p : PyStr} (h : p ∉ fs) :
    removePath fs p = fs := by
  rw [removePath, List.filter_eq_self]
  intro b hb
  simp only [ne_eq, decide_eq_true_eq, decide_not, Bool.not_eq_true']
  simp only [decide_eq_false_iff_not]
  intro hbp
  exact h (hbp ▸ hb)

theorem mem_addPath {fs : List PyStr} {p q : PyStr} :
    q ∈ addPath fs p ↔ q ∈ fs ∨ q = p := by
  unfold addPath
  by_cases h : fs.contains p
  · rw [if_pos h]
    have hp : p ∈ fs := by simpa [List.elem_eq_mem] using h
    constructor
    · exact Or.inl
    · rintro (hq | rfl)
      · exact hq
      · exact hp
  · rw [if_neg h]
    simp

theorem removePath_addPath_self {fs : List PyStr} {p : PyStr} (h : p ∉ fs) :
    removePath (addPath fs p) p = fs := by
  unfold addPath
  rw [if_neg (by simpa [List.elem_eq_mem] using h)]
  unfold removePath
  rw [List.filter_append]
  have h1 : List.filter (fun q => q ≠ p) fs = fs := by
    rw [List.filter_eq_self]
    intro b hb
    simp only [ne_eq, decide_not, Bool.not_eq_true', decide_eq_false_iff_not]
    intro hbp
    exact h (hbp ▸ hb)
  have h2 : List.filter (fun q => q ≠ p) [p] = [] := by simp
  rw [h1, h2, List.append_nil]

/-- C5: (a) whenever `download_file` fails — network error, HTTP status
error, or write failure — the destination file does not exist once the
exception propagates (a partially written file, or a pre-existing one,
is deleted first); requires only that the requested path has a
non-empty basename, which every caller guarantees (the
`Content-Disposition` renaming that could otherwise redirect the write
fires only on an empty basename).  (b) the per-file retry loop of
`HuggingFaceDirectoryDownloader.download_directory` likewise ends every
failed file with the target absent from the filesystem. -/
theorem c5_failure_deletes_destination :
    (∀ ev urlType cdn filepath fs e fs2,
      basename filepath ≠ [] →
      download_file ev urlType cdn filepath fs = (.error e, fs2) →
      filepath ∉ fs2) ∧
    (∀ env target k i fs, 1 ≤ k →
      (hfFileAttempts env target k i fs).1 = false →
      target ∉ (hfFileAttempts env target k i fs).2) := by
  constructor
  · intro ev urlType cdn filepath fs e fs2 hbase heq
    cases ev with
    | netFail =>
      cases heq
      exact not_mem_removePath_self fs filepath
    | httpFail =>
      cases heq
      exact not_mem_removePath_self fs filepath
    | writeFail =>
      unfold download_file at heq
      cases cdn with
      | none =>
        simp only [] at heq
        cases heq
        exact not_mem_removePath_self _ filepath
      | some suggested =>
        simp only [] at heq
        by_cases hciv : urlType = "civitai".data ∧ basename filepath = []
        · exact absurd hciv.2 hbase
        · rw [if_neg hciv] at heq
          cases heq
          exact not_mem_removePath_self _ filepath
    | ok =>
      unfold download_file at heq
      exact Except.noConfusion (congrArg Prod.fst heq)
  · intro env target k
    induction k with
    | zero => intro i fs hk; exact absurd hk (by simp)
    | succ rem ih =>
      intro i fs _ hfail
      by_cases hrem : rem = 0
      · subst hrem
        unfold hfFileAttempts at hfail ⊢
        cases henv : env i <;> simp [henv] at hfail ⊢
        · exact not_mem_removePath_self fs target
        · exact not_mem_removePath_self fs target
        · exact not_mem_removePath_self _ target
      · unfold hfFileAttempts at hfail ⊢
        cases henv : env i <;> simp [henv, hrem] at hfail ⊢
        · exact ih (i + 1) fs (by omega) hfail
        · exact ih (i + 1) fs (by omega) hfail
        · exact ih (i + 1) (addPath fs target) (by omega) hfail

/-- C5 (witness): a concrete write failure deletes the half-written
file, and a concrete always-failing mirror transfer (two attempts)
leaves no file at the target. -/
theorem c5_failure_deletes_destination_witness :
    ("x.bin".data : PyStr) ∉
      (download_file .writeFail ("huggingface".data) none ("x.bin".data) []).2 ∧
    ("m/y.bin".data : PyStr) ∉
      (hfFileAttempts (fun _ => .writeFail) ("m/y.bin".data) 2 1 []).2 := by
  constructor
  · exact c5_failure_deletes_destination.1 .writeFail ("huggingface".data) none
      ("x.bin".data) [] (transferErrMsg .writeFail) _ (by decide) rfl
  · exact c5_failure_deletes_destination.2 (fun _ => .writeFail) ("m/y.bin".data) 2 1 []
      (by omega) rfl

/-! ## C3 — retry bound -/

theorem contains_eq_false_of_not_mem {fs : List PyStr} {p : PyStr} (h : p ∉ fs) :
    fs.contains p = false := by
  simpa [List.elem_eq_mem] using h

theorem download_file_netFail (urlType : PyStr) (cdn : Option PyStr) (fp : PyStr)
    (fs : List PyStr) :
    download_file .netFail urlType cdn fp fs =
      (.error (transferErrMsg .netFail), removePath fs fp) := rfl

theorem download_file_httpFail (urlType : PyStr) (cdn : Option PyStr) (fp : PyStr)
    (fs : List PyStr) :
    download_file .httpFail urlType cdn fp fs =
      (.error (transferErrMsg .httpFail), removePath fs fp) := rfl

theorem download_file_writeFail_eq (urlType : PyStr) (cdn : Option PyStr) (fp : PyStr)
    (fs : List PyStr) (hbase : basename fp ≠ []) :
    download_file .writeFail urlType cdn fp fs =
      (.error (transferErrMsg .writeFail), removePath (addPath fs fp) fp) := by
  unfold download_file
  cases cdn with
  | none => rfl
  | some suggested =>
    have hcond : ¬(urlType = "civitai".data ∧ basename fp = []) := fun hx => hbase hx.2
    simp only [hcond, if_neg, ite_false, if_false]

theorem download_file_ok_eq (urlType : PyStr) (cdn : Option PyStr) (fp : PyStr)
    (fs : List PyStr) (hbase : basename fp ≠ []) :
    download_file .ok urlType cdn fp fs = (.ok fp, addPath fs fp) := by
  unfold download_file
  cases cdn with
  | none => rfl
  | some suggested =>
    have hcond : ¬(urlType = "civitai".data ∧ basename fp = []) := fun hx => hbase hx.2
    simp only [hcond, if_neg, ite_false, if_false]

/-- With a transfer that fails on every attempt and no usable
pre-existing file, the retry loop runs all of its remaining attempts,
invokes `download_file` once per attempt, and ends with the
`failMsg`-failure of the last attempt; the filesystem and ledger are
left unchanged. -/
theorem downloadAttempts_allFail (env : Nat → TransferEv) (cdn : Option PyStr)
    (urlType url sub fn fp eh bp ts : PyStr) (k : Nat)
    (hfail : ∀ i, (env i).isFail = true) (hbase : basename fp ≠ []) :
    ∀ rem i fs ledger dls, fp ∉ fs →
      downloadAttempts env cdn urlType url sub fn fp eh bp ts k (rem + 1) i fs ledger dls =
        ⟨failMsg k (transferErrMsg (env (i + rem))), [], [], ledger, fs, dls + rem + 1⟩ := by
  intro rem
  induction rem with
  | zero =>
    intro i fs ledger dls hfp
    have hcont : fs.contains fp = false := contains_eq_false_of_not_mem hfp
    have henv := hfail i
    cases he : env i with
    | ok => rw [he] at henv; cases henv
    | netFail =>
      simp only [downloadAttempts, hcont, he, Bool.false_eq_true, if_false,
        download_file_netFail]
      rw [removePath_of_not_mem hfp]
      simp [he]
    | httpFail =>
      simp only [downloadAttempts, hcont, he, Bool.false_eq_true, if_false,
        download_file_httpFail]
      rw [removePath_of_not_mem hfp]
      simp [he]
    | writeFail =>
      simp only [downloadAttempts, hcont, he, Bool.false_eq_true, if_false,
        download_file_writeFail_eq urlType cdn fp fs hbase]
      rw [removePath_addPath_self hfp]
      simp [he]
  | succ rem ih =>
    intro i fs ledger dls hfp
    have hcont : fs.contains fp = false := contains_eq_false_of_not_mem hfp
    have henv := hfail i
    have harith : i + 1 + rem = i + (rem + 1) := by omega
    cases he : env i with
    | ok => rw [he] at henv; cases henv
    | netFail =>
      conv_lhs => rw [downloadAttempts]
      rw [he]
      simp only [hcont, Bool.false_eq_true, if_false, download_file_netFail,
        removePath_of_not_mem hfp]
      rw [if_neg (Nat.succ_ne_zero rem)]
      rw [ih (i + 1) fs ledger (dls + 1) hfp, harith]
      have harith2 : dls + 1 + rem + 1 = dls + (rem + 1) + 1 := by omega
      rw [harith2]
    | httpFail =>
      conv_lhs => rw [downloadAttempts]
      rw [he]
      simp only [hcont, Bool.false_eq_true, if_false, download_file_httpFail,
        removePath_of_not_mem hfp]
      rw [if_neg (Nat.succ_ne_zero rem)]
      rw [ih (i + 1) fs ledger (dls + 1) hfp, harith]
      have harith2 : dls + 1 + rem + 1 = dls + (rem + 1) + 1 := by omega
      rw [harith2]
    | writeFail =>
      conv_lhs => rw [downloadAttempts]
      rw [he]
      simp only [hcont, Bool.false_eq_true, if_false, download_file_writeFail_eq urlType cdn fp fs hbase,
        removePath_addPath_self hfp]
      rw [if_neg (Nat.succ_ne_zero rem)]
      rw [ih (i + 1) fs ledger (dls + 1) hfp, harith]
      have harith2 : dls + 1 + rem + 1 = dls + (rem + 1) + 1 := by omega
      rw [harith2]

theorem verify_hash_empty (file : Option (List Nat)) : verify_hash file [] = .ok true := rfl

theorem verify_hash_nonempty (file : Option (List Nat)) {eh : PyStr} (heh : eh ≠ []) :
    verify_hash file eh = .error (.attributeError
      ("ModelDownloader object has no attribute calculate_sha256".data)) := by
  unfold verify_hash calculate_sha256_lookup
  rw [if_neg heh]
  rfl

/-- Each loop iteration performs at most one `download_file` call, so
the whole loop performs at most as many as it has attempts — regardless
of why each retry was triggered (stale existing file, transfer failure,
or the hash-verification exception). -/
theorem downloadAttempts_downloads_le (env : Nat → TransferEv) (cdn : Option PyStr)
    (urlType url sub fn fp eh bp ts : PyStr) (k : Nat) :
    ∀ rem i fs ledger dls,
      (downloadAttempts env cdn urlType url sub fn fp eh bp ts k rem i fs ledger dls).downloads
        ≤ dls + rem := by
  intro rem
  induction rem with
  | zero =>
    intro i fs ledger dls
    simp [downloadAttempts]
  | succ rem ih =>
    intro i fs ledger dls
    conv_lhs => rw [downloadAttempts]
    simp only []
    by_cases hc : fs.contains fp = true
    · rw [if_pos hc]
      by_cases heh : eh = []
      · subst heh
        rw [verify_hash_empty]
        simp only []
        omega
      · rw [verify_hash_nonempty (some []) heh]
        simp only []
        by_cases hrem : rem = 0
        · rw [if_pos hrem]
          simp only []
          omega
        · rw [if_neg hrem]
          exact le_trans (ih (i + 1) fs ledger dls) (by omega)
    · rw [if_neg hc]
      rcases hdf : download_file (env i) urlType cdn fp fs with ⟨res, fs2⟩
      cases res with
      | error e =>
        simp only []
        by_cases hrem : rem = 0
        · rw [if_pos hrem]
          simp only []
          omega
        · rw [if_neg hrem]
          exact le_trans (ih (i + 1) fs2 ledger (dls + 1)) (by omega)
      | ok dpath =>
        simp only []
        by_cases heh : eh = []
        · rw [if_pos heh]
          simp only []
          omega
        · rw [if_neg heh]
          rw [verify_hash_nonempty (some []) heh]
          simp only []
          by_cases hrem : rem = 0
          · rw [if_pos hrem]
            simp only []
            omega
          · rw [if_neg hrem]
            exact le_trans (ih (i + 1) fs2 ledger (dls + 1)) (by omega)

/-- C3: (a) with `max_retries = k ≥ 1`, a transfer that fails on every
attempt, and no usable pre-existing file at the target, `download_model`
performs exactly `k` `download_file` attempts and returns the failure
status naming `k` attempts together with the empty path, leaving ledger
and filesystem unchanged; (b) for *every* environment, initial
filesystem and trigger mix, the number of `download_file` attempts of
one artifact never exceeds `k` — the counter is shared between
stale-existing-file retries and fresh-download retries. -/
theorem c3_retry_bound :
    (∀ env cdn urlType url sub fn fp eh bp ts k fs ledger,
      1 ≤ k → (∀ i, (env i).isFail = true) → basename fp ≠ [] → fp ∉ fs →
      downloadAttempts env cdn urlType url sub fn fp eh bp ts k k 1 fs ledger 0 =
        ⟨failMsg k (transferErrMsg (env k)), [], [], ledger, fs, k⟩) ∧
    (∀ env cdn urlType url sub fn fp eh bp ts k fs ledger,
      (downloadAttempts env cdn urlType url sub fn fp eh bp ts k k 1 fs ledger 0).downloads
        ≤ k) := by
  constructor
  · intro env cdn urlType url sub fn fp eh bp ts k fs ledger hk hfail hbase hfp
    obtain ⟨rem, rfl⟩ : ∃ rem, k = rem + 1 := ⟨k - 1, by omega⟩
    rw [downloadAttempts_allFail env cdn urlType url sub fn fp eh bp ts (rem + 1)
      hfail hbase rem 1 fs ledger 0 hfp]
    have h1 : 1 + rem = rem + 1 := by omega
    rw [h1]
    have h2 : 0 + rem + 1 = rem + 1 := by omega
    rw [h2]
  · intro env cdn urlType url sub fn fp eh bp ts k fs ledger
    simpa using downloadAttempts_downloads_le env cdn urlType url sub fn fp eh bp ts k k 1
      fs ledger 0

/-- C3 (witness): two always-failing attempts with `max_retries = 2`
produce exactly two download attempts and the two-attempt failure
message, and the bound holds at that run. -/
theorem c3_retry_bound_witness :
    downloadAttempts (fun _ => .netFail) none ("huggingface".data) ("u".data) ("s".data)
        ("f.bin".data) ("m/s/f.bin".data) [] ("m".data) ("T".data) 2 2 1 [] [] 0 =
      ⟨failMsg 2 (transferErrMsg .netFail), [], [], [], [], 2⟩ ∧
    (downloadAttempts (fun _ => .netFail) none ("huggingface".data) ("u".data) ("s".data)
        ("f.bin".data) ("m/s/f.bin".data) [] ("m".data) ("T".data) 2 2 1 [] [] 0).downloads
      ≤ 2 := by
  constructor
  · exact c3_retry_bound.1 (fun _ => .netFail) none ("huggingface".data) ("u".data)
      ("s".data) ("f.bin".data) ("m/s/f.bin".data) [] ("m".data) ("T".data) 2 [] []
      (by omega) (fun _ => rfl) (by decide) (by simp)
  · exact c3_retry_bound.2 (fun _ => .netFail) none ("huggingface".data) ("u".data)
      ("s".data) ("f.bin".data) ("m/s/f.bin".data) [] ("m".data) ("T".data) 2 [] []

/-! ## Lemmas about the ledger operations -/

theorem hasSection_iff_sectOf {cfg : ModelConfig} {s : PyStr} :
    hasSection cfg s = true ↔ (sectOf cfg s).isSome := by
  induction cfg with
  | nil => simp [hasSection, sectOf]
  | cons sec rest ih =>
    by_cases h : sec.name = s
    · unfold hasSection sectOf
      rw [List.find?_cons_of_pos _ (by simpa using h)]
      simp [h]
    · unfold hasSection sectOf
      rw [List.find?_cons_of_neg _ (by simpa using h)]
      unfold hasSection sectOf at ih
      simpa [h] using ih

theorem sectOf_name {cfg : ModelConfig} {s : PyStr} {sec : IniSection}
    (h : sectOf cfg s = some sec) : sec.name = s := by
  have := List.find?_some h
  simpa using this

theorem names_setOpt (cfg : ModelConfig) (s k v : PyStr) :
    (setOpt cfg s k v).map IniSection.name = cfg.map IniSection.name := by
  induction cfg with
  | nil => rfl
  | cons sec rest ih =>
    by_cases h : sec.name = s <;> simp [setOpt, h] at ih ⊢ <;> exact ih

theorem hasSection_eq_names (cfg : ModelConfig) (t : PyStr) :
    hasSection cfg t = (cfg.map IniSection.name).any (fun n => n = t) := by
  induction cfg with
  | nil => rfl
  | cons sec rest ih =>
    simp only [hasSection, List.any_cons, List.map_cons] at ih ⊢
    rw [show (rest.any fun sec => decide (sec.name = t)) =
      ((rest.map IniSection.name).any fun n => decide (n = t)) from ih]

theorem hasSection_setOpt (cfg : ModelConfig) (s k v t : PyStr) :
    hasSection (setOpt cfg s k v) t = hasSection cfg t := by
  rw [hasSection_eq_names, hasSection_eq_names, names_setOpt]

theorem length_setOpt (cfg : ModelConfig) (s k v : PyStr) :
    (setOpt cfg s k v).length = cfg.length := by
  simp [setOpt]

theorem sectOf_setOpt_ne (cfg : ModelConfig) (s k v t : PyStr) (h : t ≠ s) :
    sectOf (setOpt cfg s k v) t = sectOf cfg t := by
  induction cfg with
  | nil => rfl
  | cons sec rest ih =>
    unfold setOpt at ih ⊢
    simp only [List.map_cons]
    by_cases hn : sec.name = s
    · rw [if_pos hn]
      have hnt : ¬sec.name = t := by
        rw [hn]
        exact fun he => h he.symm
      unfold sectOf
      rw [List.find?_cons_of_neg _ (by simpa using hnt),
        List.find?_cons_of_neg _ (by simpa using hnt)]
      exact ih
    · rw [if_neg hn]
      by_cases hnt : sec.name = t
      · unfold sectOf
        rw [List.find?_cons_of_pos _ (by simpa using hnt),
          List.find?_cons_of_pos _ (by simpa using hnt)]
      · unfold sectOf
        rw [List.find?_cons_of_neg _ (by simpa using hnt),
          List.find?_cons_of_neg _ (by simpa using hnt)]
        exact ih

theorem sectOf_setOpt_self (cfg : ModelConfig) (s k v : PyStr) :
    sectOf (setOpt cfg s k v) s =
      (sectOf cfg s).map (fun sec => ⟨sec.name, setKey sec.opts k v⟩) := by
  induction cfg with
  | nil => rfl
  | cons sec rest ih =>
    unfold setOpt at ih ⊢
    simp only [List.map_cons]
    by_cases hn : sec.name = s
    · rw [if_pos hn]
      unfold sectOf
      rw [List.find?_cons_of_pos _ (by simpa using hn),
        List.find?_cons_of_pos _ (by simpa using hn)]
      simp
    · rw [if_neg hn]
      unfold sectOf
      rw [List.find?_cons_of_neg _ (by simpa using hn),
        List.find?_cons_of_neg _ (by simpa using hn)]
      exact ih

theorem sectOf_addSection_ne (cfg : ModelConfig) (s t : PyStr) (h : t ≠ s) :
    sectOf (addSection cfg s) t = sectOf cfg t := by
  unfold addSection sectOf
  rw [List.find?_append]
  cases hf : List.find? (fun sec => sec.name = t) cfg with
  | some sec => simp
  | none =>
    simp only [Option.none_or]
    rw [List.find?_cons_of_neg _ (by simpa using fun he : s = t => h he.symm)]
    rfl

theorem sectOf_addSection_self (cfg : ModelConfig) (s : PyStr)
    (h : hasSection cfg s = false) :
    sectOf (addSection cfg s) s = some ⟨s, []⟩ := by
  unfold addSection sectOf
  rw [List.find?_append]
  have hn : List.find? (fun sec => sec.name = s) cfg = none := by
    rw [List.find?_eq_none]
    intro sec hsec
    simp only [decide_eq_true_eq]
    intro he
    have hany : cfg.any (fun sec => sec.name = s) = true :=
      List.any_eq_true.mpr ⟨sec, hsec, by simpa using he⟩
    rw [hasSection] at h
    rw [h] at hany
    cases hany
  rw [hn]
  simp [List.find?]

theorem hasSection_addSection_self (cfg : ModelConfig) (s : PyStr) :
    hasSection (addSection cfg s) s = true := by
  simp [hasSection, addSection]

theorem length_addSection (cfg : ModelConfig) (s : PyStr) :
    (addSection cfg s).length = cfg.length + 1 := by
  simp [addSection]

theorem find?_map_setKey_self (opts : List (PyStr × PyStr)) (k v : PyStr)
    (hex : opts.any (fun p => p.1 = k) = true) :
    List.find? (fun p => p.1 = k) (opts.map (fun p => if p.1 = k then (k, v) else p)) =
      some (k, v) := by
  induction opts with
  | nil => simp at hex
  | cons q rest ih =>
    by_cases hq : q.1 = k
    · simp only [List.map_cons, if_pos hq]
      rw [List.find?_cons_of_pos _ (by simp)]
    · simp only [List.map_cons, if_neg hq]
      rw [List.find?_cons_of_neg _ (by simpa using hq)]
      exact ih (by simpa [List.any_cons, hq] using hex)

theorem find?_map_setKey_ne (opts : List (PyStr × PyStr)) (k v k2 : PyStr) (h : k2 ≠ k) :
    List.find? (fun p => p.1 = k2) (opts.map (fun p => if p.1 = k then (k, v) else p)) =
      List.find? (fun p => p.1 = k2) opts := by
  induction opts with
  | nil => rfl
  | cons q rest ih =>
    by_cases hq : q.1 = k
    · simp only [List.map_cons, if_pos hq]
      have h1 : ¬((k, v).1 = k2) := fun he => h he.symm
      have h2 : ¬(q.1 = k2) := by
        rw [hq]
        exact fun he => h he.symm
      rw [List.find?_cons_of_neg _ (by simpa using h1),
        List.find?_cons_of_neg _ (by simpa using h2)]
      exact ih
    · simp only [List.map_cons, if_neg hq]
      by_cases hq2 : q.1 = k2
      · rw [List.find?_cons_of_pos _ (by simpa using hq2),
          List.find?_cons_of_pos _ (by simpa using hq2)]
      · rw [List.find?_cons_of_neg _ (by simpa using hq2),
          List.find?_cons_of_neg _ (by simpa using hq2)]
        exact ih

theorem find?_setKey_self (opts : List (PyStr × PyStr)) (k v : PyStr) :
    (setKey opts k v).find? (fun p => p.1 = k) = some (k, v) := by
  unfold setKey
  by_cases hex : opts.any (fun p => p.1 = k) = true
  · rw [if_pos hex]
    exact find?_map_setKey_self opts k v hex
  · rw [if_neg hex]
    rw [List.find?_append]
    have hnone : opts.find? (fun p => p.1 = k) = none := by
      rw [List.find?_eq_none]
      intro p hp
      simp only [decide_eq_true_eq]
      intro he
      exact hex (List.any_eq_true.mpr ⟨p, hp, by simpa using he⟩)
    rw [hnone]
    simp [List.find?]

theorem find?_setKey_ne (opts : List (PyStr × PyStr)) (k v k2 : PyStr) (h : k2 ≠ k) :
    (setKey opts k v).find? (fun p => p.1 = k2) = opts.find? (fun p => p.1 = k2) := by
  unfold setKey
  by_cases hex : opts.any (fun p => p.1 = k) = true
  · rw [if_pos hex]
    exact find?_map_setKey_ne opts k v k2 h
  · rw [if_neg hex]
    rw [List.find?_append]
    cases hf : opts.find? (fun p => p.1 = k2) with
    | some p => simp
    | none =>
      simp only [Option.none_or]
      rw [List.find?_cons_of_neg _ (by simpa using fun he : k = k2 => h he.symm)]
      rfl

theorem getOpt_setOpt_key_ne (cfg : ModelConfig) (s k v t k2 : PyStr) (hk : k2 ≠ k) :
    getOpt (setOpt cfg s k v) t k2 = getOpt cfg t k2 := by
  by_cases hts : t = s
  · subst hts
    unfold getOpt
    rw [sectOf_setOpt_self]
    cases hsec : sectOf cfg t with
    | none => rfl
    | some sec =>
      simp only [Option.map_some', Option.some_bind]
      unfold optValue
      rw [find?_setKey_ne _ _ _ _ hk]
  · unfold getOpt
    rw [sectOf_setOpt_ne _ _ _ _ _ hts]

theorem getOpt_setOpt_self_key (cfg : ModelConfig) (s k v : PyStr)
    (h : hasSection cfg s = true) :
    getOpt (setOpt cfg s k v) s k = some v := by
  unfold getOpt
  rw [sectOf_setOpt_self]
  rcases Option.isSome_iff_exists.mp (hasSection_iff_sectOf.mp h) with ⟨sec, hsec⟩
  rw [hsec]
  simp only [Option.map_some', Option.some_bind]
  unfold optValue
  rw [find?_setKey_self]
  rfl

theorem getOpt_addSection (cfg : ModelConfig) (t s k : PyStr)
    (h : hasSection cfg t = false) :
    getOpt (addSection cfg t) s k = getOpt cfg s k := by
  by_cases hst : s = t
  · subst hst
    unfold getOpt
    rw [sectOf_addSection_self cfg s h]
    have hnone : sectOf cfg s = none := by
      cases hs : sectOf cfg s with
      | none => rfl
      | some sec =>
        have hhs : hasSection cfg s = true := hasSection_iff_sectOf.mpr (by simp [hs])
        rw [h] at hhs
        cases hhs
    rw [hnone]
    rfl
  · unfold getOpt
    rw [sectOf_addSection_ne cfg t s hst]

/-! ## Lemmas about `save_to_ini` as a whole -/

theorem sectOf_save_to_ini_ne (cfg : ModelConfig) (url sub fn fp eh bp ts s : PyStr)
    (h : s ≠ saveTargetName cfg url fn) :
    sectOf (save_to_ini cfg url sub fn fp eh bp ts) s = sectOf cfg s := by
  unfold save_to_ini
  simp only []
  rw [sectOf_setOpt_ne _ _ _ _ _ h]
  by_cases heh : eh ≠ []
  · rw [if_pos heh]
    rw [sectOf_setOpt_ne _ _ _ _ _ h, sectOf_setOpt_ne _ _ _ _ _ h,
      sectOf_setOpt_ne _ _ _ _ _ h, sectOf_setOpt_ne _ _ _ _ _ h,
      sectOf_setOpt_ne _ _ _ _ _ h]
    by_cases hs : hasSection cfg (saveTargetName cfg url fn) = true
    · rw [if_pos hs]
    · rw [if_neg hs, sectOf_addSection_ne _ _ _ h]
  · rw [if_neg heh]
    rw [sectOf_setOpt_ne _ _ _ _ _ h, sectOf_setOpt_ne _ _ _ _ _ h,
      sectOf_setOpt_ne _ _ _ _ _ h, sectOf_setOpt_ne _ _ _ _ _ h]
    by_cases hs : hasSection cfg (saveTargetName cfg url fn) = true
    · rw [if_pos hs]
    · rw [if_neg hs, sectOf_addSection_ne _ _ _ h]

theorem hasSection_save_to_ini_target (cfg : ModelConfig) (url sub fn fp eh bp ts : PyStr) :
    hasSection (save_to_ini cfg url sub fn fp eh bp ts) (saveTargetName cfg url fn) = true := by
  unfold save_to_ini
  simp only []
  rw [hasSection_setOpt]
  by_cases heh : eh ≠ []
  · rw [if_pos heh]
    rw [hasSection_setOpt, hasSection_setOpt, hasSection_setOpt, hasSection_setOpt,
      hasSection_setOpt]
    by_cases hs : hasSection cfg (saveTargetName cfg url fn) = true
    · rw [if_pos hs]
      exact hs
    · rw [if_neg hs]
      exact hasSection_addSection_self _ _
  · rw [if_neg heh]
    rw [hasSection_setOpt, hasSection_setOpt, hasSection_setOpt, hasSection_setOpt]
    by_cases hs : hasSection cfg (saveTargetName cfg url fn) = true
    · rw [if_pos hs]
      exact hs
    · rw [if_neg hs]
      exact hasSection_addSection_self _ _

theorem getOpt_save_to_ini_url (cfg : ModelConfig) (url sub fn fp eh bp ts : PyStr) :
    getOpt (save_to_ini cfg url sub fn fp eh bp ts) (saveTargetName cfg url fn)
      ("url".data) = some url := by
  unfold save_to_ini
  simp only []
  rw [getOpt_setOpt_key_ne _ _ _ _ _ _ (by decide)]
  have hbase : hasSection (if hasSection cfg (saveTargetName cfg url fn) = true then cfg
      else addSection cfg (saveTargetName cfg url fn)) (saveTargetName cfg url fn) = true := by
    by_cases hs : hasSection cfg (saveTargetName cfg url fn) = true
    · rw [if_pos hs]
      exact hs
    · rw [if_neg hs]
      exact hasSection_addSection_self _ _
  by_cases heh : eh ≠ []
  · rw [if_pos heh]
    rw [getOpt_setOpt_key_ne _ _ _ _ _ _ (by decide),
      getOpt_setOpt_key_ne _ _ _ _ _ _ (by decide),
      getOpt_setOpt_key_ne _ _ _ _ _ _ (by decide),
      getOpt_setOpt_key_ne _ _ _ _ _ _ (by decide)]
    exact getOpt_setOpt_self_key _ _ _ _ hbase
  · rw [if_neg heh]
    rw [getOpt_setOpt_key_ne _ _ _ _ _ _ (by decide),
      getOpt_setOpt_key_ne _ _ _ _ _ _ (by decide),
      getOpt_setOpt_key_ne _ _ _ _ _ _ (by decide)]
    exact getOpt_setOpt_self_key _ _ _ _ hbase

theorem length_save_to_ini_of_target (cfg : ModelConfig) (url sub fn fp eh bp ts : PyStr)
    (h : hasSection cfg (saveTargetName cfg url fn) = true) :
    (save_to_ini cfg url sub fn fp eh bp ts).length = cfg.length := by
  unfold save_to_ini
  simp only []
  rw [length_setOpt]
  by_cases heh : eh ≠ []
  · rw [if_pos heh]
    rw [length_setOpt, length_setOpt, length_setOpt, length_setOpt, length_setOpt, if_pos h]
  · rw [if_neg heh]
    rw [length_setOpt, length_setOpt, length_setOpt, length_setOpt, if_pos h]

theorem length_save_to_ini_ge (cfg : ModelConfig) (url sub fn fp eh bp ts : PyStr) :
    cfg.length ≤ (save_to_ini cfg url sub fn fp eh bp ts).length := by
  unfold save_to_ini
  simp only []
  rw [length_setOpt]
  by_cases heh : eh ≠ []
  · rw [if_pos heh]
    rw [length_setOpt, length_setOpt, length_setOpt, length_setOpt, length_setOpt]
    by_cases hs : hasSection cfg (saveTargetName cfg url fn) = true
    · rw [if_pos hs]
    · rw [if_neg hs, length_addSection]
      omega
  · rw [if_neg heh]
    rw [length_setOpt, length_setOpt, length_setOpt, length_setOpt]
    by_cases hs : hasSection cfg (saveTargetName cfg url fn) = true
    · rw [if_pos hs]
    · rw [if_neg hs, length_addSection]
      omega

theorem getOpt_save_to_ini_type (cfg : ModelConfig) (url sub fn fp eh bp ts s : PyStr) :
    getOpt (save_to_ini cfg url sub fn fp eh bp ts) s ("type".data) =
      getOpt cfg s ("type".data) := by
  unfold save_to_ini
  simp only []
  rw [getOpt_setOpt_key_ne _ _ _ _ _ _ (by decide)]
  by_cases heh : eh ≠ []
  · rw [if_pos heh]
    rw [getOpt_setOpt_key_ne _ _ _ _ _ _ (by decide),
      getOpt_setOpt_key_ne _ _ _ _ _ _ (by decide),
      getOpt_setOpt_key_ne _ _ _ _ _ _ (by decide),
      getOpt_setOpt_key_ne _ _ _ _ _ _ (by decide),
      getOpt_setOpt_key_ne _ _ _ _ _ _ (by decide)]
    by_cases hs : hasSection cfg (saveTargetName cfg url fn) = true
    · rw [if_pos hs]
    · rw [if_neg hs, getOpt_addSection _ _ _ _ (by simpa using hs)]
  · rw [if_neg heh]
    rw [getOpt_setOpt_key_ne _ _ _ _ _ _ (by decide),
      getOpt_setOpt_key_ne _ _ _ _ _ _ (by decide),
      getOpt_setOpt_key_ne _ _ _ _ _ _ (by decide),
      getOpt_setOpt_key_ne _ _ _ _ _ _ (by decide)]
    by_cases hs : hasSection cfg (saveTargetName cfg url fn) = true
    · rw [if_pos hs]
    · rw [if_neg hs, getOpt_addSection _ _ _ _ (by simpa using hs)]

theorem getOpt_save_to_ini_hash_empty (cfg : ModelConfig) (url sub fn fp bp ts s : PyStr) :
    getOpt (save_to_ini cfg url sub fn fp [] bp ts) s ("hash".data) =
      getOpt cfg s ("hash".data) := by
  unfold save_to_ini
  simp only []
  rw [getOpt_setOpt_key_ne _ _ _ _ _ _ (by decide)]
  rw [if_neg (by simp)]
  rw [getOpt_setOpt_key_ne _ _ _ _ _ _ (by decide),
    getOpt_setOpt_key_ne _ _ _ _ _ _ (by decide),
    getOpt_setOpt_key_ne _ _ _ _ _ _ (by decide),
    getOpt_setOpt_key_ne _ _ _ _ _ _ (by decide)]
  by_cases hs : hasSection cfg (saveTargetName cfg url fn) = true
  · rw [if_pos hs]
  · rw [if_neg hs, getOpt_addSection _ _ _ _ (by simpa using hs)]

theorem names_save_to_ini (cfg : ModelConfig) (url sub fn fp eh bp ts : PyStr) :
    (save_to_ini cfg url sub fn fp eh bp ts).map IniSection.name =
      (if hasSection cfg (saveTargetName cfg url fn) = true then cfg.map IniSection.name
        else cfg.map IniSection.name ++ [saveTargetName cfg url fn]) := by
  unfold save_to_ini
  simp only []
  rw [names_setOpt]
  by_cases heh : eh ≠ []
  · rw [if_pos heh]
    rw [names_setOpt, names_setOpt, names_setOpt, names_setOpt, names_setOpt]
    by_cases hs : hasSection cfg (saveTargetName cfg url fn) = true
    · rw [if_pos hs, if_pos hs]
    · rw [if_neg hs, if_neg hs]
      simp [addSection]
  · rw [if_neg heh]
    rw [names_setOpt, names_setOpt, names_setOpt, names_setOpt]
    by_cases hs : hasSection cfg (saveTargetName cfg url fn) = true
    · rw [if_pos hs, if_pos hs]
    · rw [if_neg hs, if_neg hs]
      simp [addSection]

/-! ## Lemmas about the section-identifier search loop -/

/-- The walk of `findSectionName` stops at some candidate index `m`:
every earlier candidate from `n` on names a section recording a
different url, and — unless the fuel ran out exactly at `m` — the
stopping candidate is "available" (not a section, or a section already
recording this url). -/
theorem findSectionName_trace (cfg : ModelConfig) (base url : PyStr) :
    ∀ fuel n, ∃ m, n ≤ m ∧ m ≤ n + fuel ∧
      findSectionName cfg base url fuel n = candName base m ∧
      (∀ j, n ≤ j → j < m → hasSection cfg (candName base j) = true ∧
        getOpt cfg (candName base j) ("url".data) ≠ some url) ∧
      (m < n + fuel →
        hasSection cfg (candName base m) = false ∨
        getOpt cfg (candName base m) ("url".data) = some url) := by
  intro fuel
  induction fuel with
  | zero =>
    intro n
    exact ⟨n, le_refl n, by omega, rfl, fun j hj1 hj2 => absurd hj2 (by omega),
      fun hlt => absurd hlt (by omega)⟩
  | succ fuel ih =>
    intro n
    by_cases hs : hasSection cfg (candName base n) = true
    · by_cases hu : getOpt cfg (candName base n) ("url".data) = some url
      · refine ⟨n, le_refl n, by omega, ?_, fun j hj1 hj2 => absurd hj2 (by omega),
          fun _ => Or.inr hu⟩
        unfold findSectionName
        rw [if_pos hs, if_pos hu]
      · obtain ⟨m, h1, h2, h3, h4, h5⟩ := ih (n + 1)
        refine ⟨m, by omega, by omega, ?_, ?_, fun hlt => h5 (by omega)⟩
        · unfold findSectionName
          rw [if_pos hs, if_neg hu]
          exact h3
        · intro j hj1 hj2
          rcases Nat.eq_or_lt_of_le hj1 with heq | hlt
          · rw [← heq]
            exact ⟨hs, hu⟩
          · exact h4 j hlt hj2
    · refine ⟨n, le_refl n, by omega, ?_, fun j hj1 hj2 => absurd hj2 (by omega),
        fun _ => Or.inl (by simpa using hs)⟩
      unfold findSectionName
      rw [if_neg hs]

/-- If a configuration records this url at candidate `m` and matches the
walk's earlier trace at every candidate before `m` that differs from
`candName base m`, then the walk (with any fuel reaching `m`) returns
`candName base m`. -/
theorem findSectionName_stable (cfg2 : ModelConfig) (base url : PyStr) (m : Nat)
    (hmem : hasSection cfg2 (candName base m) = true)
    (hurl : getOpt cfg2 (candName base m) ("url".data) = some url) :
    ∀ fuel n, n ≤ m → m ≤ n + fuel →
      (∀ j, n ≤ j → j < m → candName base j ≠ candName base m →
        hasSection cfg2 (candName base j) = true ∧
        getOpt cfg2 (candName base j) ("url".data) ≠ some url) →
      findSectionName cfg2 base url fuel n = candName base m := by
  intro fuel
  induction fuel with
  | zero =>
    intro n h1 h2 _
    have : n = m := by omega
    rw [this]
    rfl
  | succ fuel ih =>
    intro n h1 h2 hpre
    rcases Nat.eq_or_lt_of_le h1 with heq | hlt
    · unfold findSectionName
      rw [heq, if_pos hmem, if_pos hurl]
    · by_cases hcand : candName base n = candName base m
      · unfold findSectionName
        rw [hcand, if_pos hmem, if_pos hurl]
      · obtain ⟨hhas, hne⟩ := hpre n (le_refl n) hlt hcand
        unfold findSectionName
        rw [if_pos hhas, if_neg hne]
        exact ih (n + 1) hlt (by omega) (fun j hj1 hj2 hj3 => hpre j (by omega) hj2 hj3)

/-- A second `save_to_ini` with the same `filename` and `url` selects
the same section identifier as the first, whatever the other fields
were: the first write left every earlier candidate untouched and made
the chosen section record `url`. -/
theorem saveTargetName_save_same (cfg : ModelConfig) (url sub fn fp eh bp ts : PyStr) :
    saveTargetName (save_to_ini cfg url sub fn fp eh bp ts) url fn =
      saveTargetName cfg url fn := by
  obtain ⟨m, h1, h2, h3, h4, h5⟩ :=
    findSectionName_trace cfg (sectionBase fn) url (cfg.length + 1) 0
  have htgt : saveTargetName cfg url fn = candName (sectionBase fn) m := h3
  have hmem : hasSection (save_to_ini cfg url sub fn fp eh bp ts)
      (candName (sectionBase fn) m) = true := by
    rw [← htgt]
    exact hasSection_save_to_ini_target cfg url sub fn fp eh bp ts
  have hurl : getOpt (save_to_ini cfg url sub fn fp eh bp ts)
      (candName (sectionBase fn) m) ("url".data) = some url := by
    rw [← htgt]
    exact getOpt_save_to_ini_url cfg url sub fn fp eh bp ts
  have hpre : ∀ j, 0 ≤ j → j < m →
      candName (sectionBase fn) j ≠ candName (sectionBase fn) m →
      hasSection (save_to_ini cfg url sub fn fp eh bp ts)
        (candName (sectionBase fn) j) = true ∧
      getOpt (save_to_ini cfg url sub fn fp eh bp ts)
        (candName (sectionBase fn) j) ("url".data) ≠ some url := by
    intro j hj0 hjm hjne
    have hfr : sectOf (save_to_ini cfg url sub fn fp eh bp ts)
        (candName (sectionBase fn) j) = sectOf cfg (candName (sectionBase fn) j) := by
      apply sectOf_save_to_ini_ne
      rw [htgt]
      exact hjne
    obtain ⟨hh, hu⟩ := h4 j hj0 hjm
    constructor
    · rw [hasSection_iff_sectOf, hfr, ← hasSection_iff_sectOf]
      exact hh
    · unfold getOpt
      rw [hfr]
      exact hu
  have hlen := length_save_to_ini_ge cfg url sub fn fp eh bp ts
  unfold saveTargetName
  rw [findSectionName_stable (save_to_ini cfg url sub fn fp eh bp ts) (sectionBase fn)
    url m hmem hurl ((save_to_ini cfg url sub fn fp eh bp ts).length + 1) 0
    (by omega) (by omega) hpre]
  exact htgt.symm

theorem candName_pos_ne_base (base : PyStr) (m : Nat) (hm : 1 ≤ m) :
    candName base m ≠ base := by
  obtain ⟨m', rfl⟩ : ∃ m', m = m' + 1 := ⟨m - 1, by omega⟩
  intro he
  have hlen := congrArg List.length he
  simp [candName] at hlen

/-- C6: (a) repeating `save_to_ini` with the same `filename` and `url`
(other fields arbitrary) targets the same section and leaves the
section count unchanged — the upsert overwrites in place; (b) with the
same filename but a different url, while the base identifier's section
records the old url, the upsert picks a numerically suffixed identifier
(`base_m`, trying and rejecting every earlier candidate that names a
section with a different url, stopping at the first available one
within its fuel) and leaves the base section untouched. -/
theorem c6_upsert_idempotent :
    (∀ cfg url subA subB fn fpA fpB ehA ehB bpA bpB tsA tsB,
      saveTargetName (save_to_ini cfg url subA fn fpA ehA bpA tsA) url fn =
        saveTargetName cfg url fn ∧
      (save_to_ini (save_to_ini cfg url subA fn fpA ehA bpA tsA)
          url subB fn fpB ehB bpB tsB).length =
        (save_to_ini cfg url subA fn fpA ehA bpA tsA).length) ∧
    (∀ cfg url1 url2 sub fn fp eh bp ts,
      hasSection cfg (sectionBase fn) = true →
      getOpt cfg (sectionBase fn) ("url".data) = some url1 →
      url2 ≠ url1 →
      (∃ m, 1 ≤ m ∧ saveTargetName cfg url2 fn = candName (sectionBase fn) m ∧
        saveTargetName cfg url2 fn ≠ sectionBase fn ∧
        (∀ j, j < m → hasSection cfg (candName (sectionBase fn) j) = true ∧
          getOpt cfg (candName (sectionBase fn) j) ("url".data) ≠ some url2) ∧
        (m < cfg.length + 1 →
          hasSection cfg (candName (sectionBase fn) m) = false ∨
          getOpt cfg (candName (sectionBase fn) m) ("url".data) = some url2)) ∧
      sectOf (save_to_ini cfg url2 sub fn fp eh bp ts) (sectionBase fn) =
        sectOf cfg (sectionBase fn)) := by
  constructor
  · intro cfg url subA subB fn fpA fpB ehA ehB bpA bpB tsA tsB
    refine ⟨saveTargetName_save_same cfg url subA fn fpA ehA bpA tsA, ?_⟩
    apply length_save_to_ini_of_target
    rw [saveTargetName_save_same cfg url subA fn fpA ehA bpA tsA]
    exact hasSection_save_to_ini_target cfg url subA fn fpA ehA bpA tsA
  · intro cfg url1 url2 sub fn fp eh bp ts hbase hurl hne
    obtain ⟨m, h1, h2, h3, h4, h5⟩ :=
      findSectionName_trace cfg (sectionBase fn) url2 (cfg.length + 1) 0
    have hne2 : getOpt cfg (sectionBase fn) ("url".data) ≠ some url2 := by
      rw [hurl]
      intro he
      exact hne (Option.some.inj he).symm
    have hm1 : 1 ≤ m := by
      rcases Nat.eq_zero_or_pos m with hm0 | hpos
      · exfalso
        rcases h5 (by omega) with hnos | hurl2
        · rw [hm0] at hnos
          rw [show candName (sectionBase fn) 0 = sectionBase fn from rfl] at hnos
          rw [hbase] at hnos
          cases hnos
        · rw [hm0] at hurl2
          rw [show candName (sectionBase fn) 0 = sectionBase fn from rfl] at hurl2
          exact hne2 hurl2
      · exact hpos
    have htgt : saveTargetName cfg url2 fn = candName (sectionBase fn) m := h3
    have htgtne : saveTargetName cfg url2 fn ≠ sectionBase fn := by
      rw [htgt]
      exact candName_pos_ne_base (sectionBase fn) m hm1
    refine ⟨⟨m, hm1, htgt, htgtne, fun j hj => h4 j (by omega) hj, fun hlt => h5 (by omega)⟩, ?_⟩
    exact sectOf_save_to_ini_ne cfg url2 sub fn fp eh bp ts (sectionBase fn)
      (fun he => htgtne he.symm)

/-- C6 (witness): instantiating both halves — the same-source repeat at
an empty ledger, and the suffixing behaviour at a one-section ledger
recording a different url. -/
theorem c6_upsert_idempotent_witness :
    (saveTargetName (save_to_ini [] ("u".data) ("s".data) ("a.bin".data) ("fp".data)
        [] ("m".data) ("T1".data)) ("u".data) ("a.bin".data) =
      saveTargetName [] ("u".data) ("a.bin".data) ∧
      (save_to_ini (save_to_ini [] ("u".data) ("s".data) ("a.bin".data) ("fp".data)
          [] ("m".data) ("T1".data)) ("u".data) ("s2".data) ("a.bin".data) ("fp2".data)
          [] ("m".data) ("T2".data)).length =
        (save_to_ini [] ("u".data) ("s".data) ("a.bin".data) ("fp".data)
          [] ("m".data) ("T1".data)).length) ∧
    (∃ m, 1 ≤ m ∧
      saveTargetName [⟨"a_bin".data, [("url".data, "u1".data)]⟩] ("u2".data)
          ("a.bin".data) = candName (sectionBase ("a.bin".data)) m ∧
      saveTargetName [⟨"a_bin".data, [("url".data, "u1".data)]⟩] ("u2".data)
          ("a.bin".data) ≠ sectionBase ("a.bin".data) ∧
      (∀ j, j < m →
        hasSection [⟨"a_bin".data, [("url".data, "u1".data)]⟩]
          (candName (sectionBase ("a.bin".data)) j) = true ∧
        getOpt [⟨"a_bin".data, [("url".data, "u1".data)]⟩]
          (candName (sectionBase ("a.bin".data)) j) ("url".data) ≠ some ("u2".data)) ∧
      (m < 2 →
        hasSection [⟨"a_bin".data, [("url".data, "u1".data)]⟩]
          (candName (sectionBase ("a.bin".data)) m) = false ∨
        getOpt [⟨"a_bin".data, [("url".data, "u1".data)]⟩]
          (candName (sectionBase ("a.bin".data)) m) ("url".data) = some ("u2".data))) := by
  constructor
  · exact c6_upsert_idempotent.1 [] ("u".data) ("s".data) ("s2".data) ("a.bin".data)
      ("fp".data) ("fp2".data) [] [] ("m".data) ("m".data) ("T1".data) ("T2".data)
  · exact (c6_upsert_idempotent.2 [⟨"a_bin".data, [("url".data, "u1".data)]⟩]
      ("u1".data) ("u2".data) ("s".data) ("a.bin".data) ("fp".data) [] ("m".data)
      ("T".data) (by decide) rfl (by decide)).1

/-! ## C7 — the claimed `(kind, url)`-uniqueness invariant

`save_to_ini` keys its lookup by the *filename*-derived identifier, not
by the url: upserting the same url under two different filenames walks
two disjoint candidate chains and creates two sections both recording
that url.  The claimed invariant is therefore false; what the upsert
does maintain is uniqueness of section *identifiers*, merging only when
a filename-derived candidate already records the same url. -/

/-- C7 (counterexample): from the empty ledger, recording url `"u"`
under filename `"a.bin"` and then again under filename `"b.bin"` yields
two distinct file-kind sections (`a_bin`, `b_bin`) with the identical
url — the claimed invariant is violated by two upserts. -/
theorem c7_counterexample :
    getOpt (save_to_ini (save_to_ini [] ("u".data) ("s".data) ("a.bin".data)
        ("fp1".data) [] ("m".data) ("T".data)) ("u".data) ("s".data) ("b.bin".data)
        ("fp2".data) [] ("m".data) ("T".data)) ("a_bin".data) ("url".data) =
      some ("u".data) ∧
    getOpt (save_to_ini (save_to_ini [] ("u".data) ("s".data) ("a.bin".data)
        ("fp1".data) [] ("m".data) ("T".data)) ("u".data) ("s".data) ("b.bin".data)
        ("fp2".data) [] ("m".data) ("T".data)) ("b_bin".data) ("url".data) =
      some ("u".data) ∧
    ("a_bin".data : PyStr) ≠ "b_bin".data ∧
    (save_to_ini (save_to_ini [] ("u".data) ("s".data) ("a.bin".data)
        ("fp1".data) [] ("m".data) ("T".data)) ("u".data) ("s".data) ("b.bin".data)
        ("fp2".data) [] ("m".data) ("T".data)).length = 2 := by
  refine ⟨rfl, rfl, by decide, rfl⟩

/-- C7 (amended): the invariant the upsert actually maintains is
uniqueness of section identifiers — `save_to_ini` never creates a
second section with an existing name — and it merges (adds no section)
exactly when its chosen identifier already names a section, in
particular whenever a candidate section with this url was found;
sections sharing the same url under different filename-derived
identifiers are permitted and do occur. -/
theorem c7_no_duplicate_names :
    (∀ cfg url sub fn fp eh bp ts,
      (cfg.map IniSection.name).Nodup →
      ((save_to_ini cfg url sub fn fp eh bp ts).map IniSection.name).Nodup) ∧
    (∀ cfg url sub fn fp eh bp ts,
      hasSection cfg (saveTargetName cfg url fn) = true →
      (save_to_ini cfg url sub fn fp eh bp ts).length = cfg.length) := by
  constructor
  · intro cfg url sub fn fp eh bp ts hnd
    rw [names_save_to_ini]
    by_cases hs : hasSection cfg (saveTargetName cfg url fn) = true
    · rw [if_pos hs]
      exact hnd
    · rw [if_neg hs]
      rw [List.nodup_append]
      refine ⟨hnd, List.nodup_singleton _, ?_⟩
      intro a ha hb
      simp only [List.mem_singleton] at hb
      subst hb
      rw [hasSection_eq_names] at hs
      have : (cfg.map IniSection.name).any
          (fun n => n = saveTargetName cfg url fn) = true :=
        List.any_eq_true.mpr ⟨_, ha, by simp⟩
      exact hs this
  · intro cfg url sub fn fp eh bp ts hs
    exact length_save_to_ini_of_target cfg url sub fn fp eh bp ts hs

/-- C7 (witness): name-uniqueness is preserved across the two-filename
scenario of the counterexample, and an upsert whose target already
exists adds no section. -/
theorem c7_no_duplicate_names_witness :
    ((save_to_ini [⟨"a_bin".data, [("url".data, "u".data)]⟩] ("u".data) ("s".data)
        ("b.bin".data) ("fp".data) [] ("m".data) ("T".data)).map IniSection.name).Nodup ∧
    (save_to_ini [⟨"a_bin".data, [("url".data, "u".data)]⟩] ("u".data) ("s".data)
        ("a.bin".data) ("fp".data) [] ("m".data) ("T".data)).length = 1 := by
  constructor
  · exact c7_no_duplicate_names.1 [⟨"a_bin".data, [("url".data, "u".data)]⟩]
      ("u".data) ("s".data) ("b.bin".data) ("fp".data) [] ("m".data) ("T".data)
      (by decide)
  · exact c7_no_duplicate_names.2 [⟨"a_bin".data, [("url".data, "u".data)]⟩]
      ("u".data) ("s".data) ("a.bin".data) ("fp".data) [] ("m".data) ("T".data)
      (by decide)

/-! ## C10 — frame property of the upsert -/

/-- C10: (a) `save_to_ini` leaves every section other than its target
byte-for-byte unchanged; (b) when the base identifier's section already
records the same url (so the upsert overwrites that section) and the
call passes an empty `expected_hash`, the previously recorded `hash`
key of that section is retained. -/
theorem c10_save_frame :
    (∀ cfg url sub fn fp eh bp ts s, s ≠ saveTargetName cfg url fn →
      sectOf (save_to_ini cfg url sub fn fp eh bp ts) s = sectOf cfg s) ∧
    (∀ cfg url sub fn fp bp ts h,
      hasSection cfg (sectionBase fn) = true →
      getOpt cfg (sectionBase fn) ("url".data) = some url →
      getOpt cfg (sectionBase fn) ("hash".data) = some h →
      saveTargetName cfg url fn = sectionBase fn ∧
      getOpt (save_to_ini cfg url sub fn fp [] bp ts) (sectionBase fn)
        ("hash".data) = some h) := by
  constructor
  · intro cfg url sub fn fp eh bp ts s hne
    exact sectOf_save_to_ini_ne cfg url sub fn fp eh bp ts s hne
  · intro cfg url sub fn fp bp ts h hbase hurl hhash
    have htgt : saveTargetName cfg url fn = sectionBase fn := by
      unfold saveTargetName
      unfold findSectionName
      rw [show candName (sectionBase fn) 0 = sectionBase fn from rfl]
      rw [if_pos hbase, if_pos hurl]
    refine ⟨htgt, ?_⟩
    rw [getOpt_save_to_ini_hash_empty]
    exact hhash

/-- C10 (witness): at a one-section ledger holding a hash, an
empty-hash overwrite for the same url keeps the hash, and an unrelated
section name is untouched. -/
theorem c10_save_frame_witness :
    sectOf (save_to_ini [⟨"a_bin".data, [("url".data, "u".data),
        ("hash".data, "ABC".data)]⟩] ("u".data) ("s2".data) ("a.bin".data)
        ("fp".data) [] ("m".data) ("T2".data)) ("other".data) =
      sectOf [⟨"a_bin".data, [("url".data, "u".data), ("hash".data, "ABC".data)]⟩]
        ("other".data) ∧
    getOpt (save_to_ini [⟨"a_bin".data, [("url".data, "u".data),
        ("hash".data, "ABC".data)]⟩] ("u".data) ("s2".data) ("a.bin".data)
        ("fp".data) [] ("m".data) ("T2".data)) (sectionBase ("a.bin".data))
      ("hash".data) = some ("ABC".data) := by
  constructor
  · exact c10_save_frame.1 [⟨"a_bin".data, [("url".data, "u".data),
      ("hash".data, "ABC".data)]⟩] ("u".data) ("s2".data) ("a.bin".data) ("fp".data)
      [] ("m".data) ("T2".data) ("other".data) (by decide)
  · exact (c10_save_frame.2 [⟨"a_bin".data, [("url".data, "u".data),
      ("hash".data, "ABC".data)]⟩] ("u".data) ("s2".data) ("a.bin".data) ("fp".data)
      ("m".data) ("T2".data) ("ABC".data) (by decide) rfl rfl).2

/-! ## C8 — the `/resolve/`-URL scenario

The scenario's URL `https://host/resolve/main/model.safetensors`
contains neither `huggingface.co` nor `civitai.com`, so
`detect_url_type` classifies it `unknown` and `download_model` rejects
it outright — no attempt, no ledger entry.  With the HuggingFace host
the scenario behaves exactly as claimed. -/

/-- C8 (counterexample): the claim's literal URL is rejected by the
URL-type classification — `download_model` returns the
unsupported-URL error with the empty path, performs zero download
attempts, and the ledger stays empty. -/
theorem c8_counterexample :
    detect_url_type ("https://host/resolve/main/model.safetensors".data) =
      "unknown".data ∧
    download_model (fun _ => .ok) none none (fun _ _ => .ok) []
      ("https://host/resolve/main/model.safetensors".data) ("loras/SDXL".data)
      [] [] [] 3 [] [] ("models".data) ("T".data) =
      ⟨"Error: Unsupported URL. Only HuggingFace and CivitAI are supported.".data,
        [], [], [], [], 0⟩ := ⟨rfl, rfl⟩

/-- C8 (amended): with the provider host (`huggingface.co`) in place of
the generic `host`, the scenario holds: the filename resolves to
`model.safetensors`, the target is
`<root>/loras/SDXL/model.safetensors`, the download completes in one
successful attempt, and the ledger gains a file-kind section (a section
without a `type` key) recording the url and filename. -/
theorem c8_resolve_scenario :
    (download_model (fun _ => .ok) none none (fun _ _ => .ok) []
        ("https://huggingface.co/resolve/main/model.safetensors".data)
        ("loras/SDXL".data) [] [] [] 3 [] [] ("models".data) ("T".data)).status =
      "✓ Successfully downloaded: model.safetensors".data ∧
    (download_model (fun _ => .ok) none none (fun _ _ => .ok) []
        ("https://huggingface.co/resolve/main/model.safetensors".data)
        ("loras/SDXL".data) [] [] [] 3 [] [] ("models".data) ("T".data)).filePath =
      "models/loras/SDXL/model.safetensors".data ∧
    (download_model (fun _ => .ok) none none (fun _ _ => .ok) []
        ("https://huggingface.co/resolve/main/model.safetensors".data)
        ("loras/SDXL".data) [] [] [] 3 [] [] ("models".data) ("T".data)).downloads = 1 ∧
    hasSection (download_model (fun _ => .ok) none none (fun _ _ => .ok) []
        ("https://huggingface.co/resolve/main/model.safetensors".data)
        ("loras/SDXL".data) [] [] [] 3 [] [] ("models".data) ("T".data)).ledger
      ("model_safetensors".data) = true ∧
    getOpt (download_model (fun _ => .ok) none none (fun _ _ => .ok) []
        ("https://huggingface.co/resolve/main/model.safetensors".data)
        ("loras/SDXL".data) [] [] [] 3 [] [] ("models".data) ("T".data)).ledger
      ("model_safetensors".data) ("url".data) =
      some ("https://huggingface.co/resolve/main/model.safetensors".data) ∧
    getOpt (download_model (fun _ => .ok) none none (fun _ _ => .ok) []
        ("https://huggingface.co/resolve/main/model.safetensors".data)
        ("loras/SDXL".data) [] [] [] 3 [] [] ("models".data) ("T".data)).ledger
      ("model_safetensors".data) ("filename".data) = some ("model.safetensors".data) ∧
    getOpt (download_model (fun _ => .ok) none none (fun _ _ => .ok) []
        ("https://huggingface.co/resolve/main/model.safetensors".data)
        ("loras/SDXL".data) [] [] [] 3 [] [] ("models".data) ("T".data)).ledger
      ("model_safetensors".data) ("type".data) = none :=
  ⟨rfl, rfl, rfl, rfl, rfl, rfl, rfl⟩

/-! ## C9 — structural-change detection and the directory-kind upsert

The pure check behaves as claimed, but `download_directory` never calls
it (nor `save_directory_to_ini`): the only ledger writes a directory
mirror performs are the per-file `save_to_ini` calls inside the
recursive `download_model` invocations, which write file-kind sections
(no `type` key).  No directory-kind upsert ever happens. -/

theorem getOpt_type_downloadAttempts (env : Nat → TransferEv) (cdn : Option PyStr)
    (urlType url sub fn fp eh bp ts : PyStr) (k : Nat) :
    ∀ rem i fs ledger dls s,
      getOpt (downloadAttempts env cdn urlType url sub fn fp eh bp ts
          k rem i fs ledger dls).ledger s ("type".data) =
        getOpt ledger s ("type".data) := by
  intro rem
  induction rem with
  | zero =>
    intro i fs ledger dls s
    rfl
  | succ rem ih =>
    intro i fs ledger dls s
    conv_lhs => rw [downloadAttempts]
    simp only []
    by_cases hc : fs.contains fp = true
    · rw [if_pos hc]
      by_cases heh : eh = []
      · subst heh
        rw [verify_hash_empty]
        simp only []
        exact getOpt_save_to_ini_type _ _ _ _ _ _ _ _ _
      · rw [verify_hash_nonempty (some []) heh]
        simp only []
        by_cases hrem : rem = 0
        · rw [if_pos hrem]
        · rw [if_neg hrem]
          exact ih (i + 1) fs ledger dls s
    · rw [if_neg hc]
      rcases hdf : download_file (env i) urlType cdn fp fs with ⟨res, fs2⟩
      cases res with
      | error e =>
        simp only []
        by_cases hrem : rem = 0
        · rw [if_pos hrem]
        · rw [if_neg hrem]
          exact ih (i + 1) fs2 ledger (dls + 1) s
      | ok dpath =>
        simp only []
        by_cases heh : eh = []
        · rw [if_pos heh]
          simp only []
          exact getOpt_save_to_ini_type _ _ _ _ _ _ _ _ _
        · rw [if_neg heh]
          rw [verify_hash_nonempty (some []) heh]
          simp only []
          by_cases hrem : rem = 0
          · rw [if_pos hrem]
          · rw [if_neg hrem]
            exact ih (i + 1) fs2 ledger (dls + 1) s

theorem getOpt_type_download_model_file (env : Nat → TransferEv) (cdn civName : Option PyStr)
    (urlType url sub fn eh : PyStr) (k : Nat) (ledger : ModelConfig) (fs : List PyStr)
    (bp ts s : PyStr) :
    getOpt (download_model_file env cdn civName urlType url sub fn eh
        k ledger fs bp ts).ledger s ("type".data) =
      getOpt ledger s ("type".data) := by
  unfold download_model_file
  cases hn : normalize_and_validate_path sub with
  | error e => rfl
  | ok nsub =>
    simp only []
    exact getOpt_type_downloadAttempts _ _ _ _ _ _ _ _ _ _ _ _ _ _ _ _ _

theorem getOpt_type_dirStep (fenv : PyStr → Nat → TransferEv)
    (repo_id revision directory_path sub : PyStr) (k : Nat) (bp ts : PyStr)
    (acc : DirAcc) (p s : PyStr) :
    getOpt (dirStep fenv repo_id revision directory_path sub k bp ts acc p).ledger
        s ("type".data) =
      getOpt acc.ledger s ("type".data) := by
  unfold dirStep
  simp only []
  split
  · rfl
  · split
    · rfl
    · split
      · exact getOpt_type_download_model_file _ _ _ _ _ _ _ _ _ _ _ _ _ _
      · split
        · exact getOpt_type_download_model_file _ _ _ _ _ _ _ _ _ _ _ _ _ _
        · exact getOpt_type_download_model_file _ _ _ _ _ _ _ _ _ _ _ _ _ _

theorem getOpt_type_dirFold (fenv : PyStr → Nat → TransferEv)
    (repo_id revision directory_path sub : PyStr) (k : Nat) (bp ts : PyStr) :
    ∀ (files : List PyStr) (acc : DirAcc) (s : PyStr),
      getOpt ((files.foldl (dirStep fenv repo_id revision directory_path sub k bp ts)
          acc).ledger) s ("type".data) =
        getOpt acc.ledger s ("type".data) := by
  intro files
  induction files with
  | nil =>
    intro acc s
    rfl
  | cons p rest ih =>
    intro acc s
    rw [List.foldl_cons, ih]
    exact getOpt_type_dirStep fenv repo_id revision directory_path sub k bp ts acc p s

/-- C9 (counterexample): a concrete mirror run for which the claim
mandates a directory-kind upsert — update instructed, no ledger section
matches the mirror's url (`check_directory_structure_changed` returns
`True`) — yet `download_directory` completes successfully without ever
writing a directory-kind entry: the resulting ledger holds exactly one
section and it has no `type` key at all. -/
theorem c9_counterexample :
    check_directory_structure_changed (some [])
      ("https://huggingface.co/u/r/tree/main/d".data) ("sub".data)
      [("d/a.bin".data)] true = .ok true ∧
    (download_directory (fun _ _ => .ok) [("d/a.bin".data)]
        ("https://huggingface.co/u/r/tree/main/d".data) ("sub".data)
        ("README.md, .gitattributes".data) 3 [] [] ("models".data) ("T".data)).ledger.all
      (fun sec => (optValue sec ("type".data)).isNone) = true ∧
    (download_directory (fun _ _ => .ok) [("d/a.bin".data)]
        ("https://huggingface.co/u/r/tree/main/d".data) ("sub".data)
        ("README.md, .gitattributes".data) 3 [] [] ("models".data) ("T".data)).ledger.length
      = 1 ∧
    (download_directory (fun _ _ => .ok) [("d/a.bin".data)]
        ("https://huggingface.co/u/r/tree/main/d".data) ("sub".data)
        ("README.md, .gitattributes".data) 3 [] [] ("models".data) ("T".data)).status =
      "✓ Directory download completed: 1 downloaded, 0 skipped".data :=
  ⟨rfl, rfl, rfl, rfl⟩

/-- C9 (amended): `check_directory_structure_changed` returns `False`
whenever updating is disabled, and with updating enabled returns `True`
exactly when the ledger is missing/unreadable, no section records the
mirror's url, or the first section that does differs from the current
run in `file_count` or `subdirectory` — but `download_directory` never
invokes it and performs no directory-kind upsert at all: the `type`
option of every ledger section is exactly what it was before the
mirror ran (the mirror's only ledger writes are per-file file-kind
`save_to_ini` upserts). -/
theorem c9_structure_check :
    (∀ ini url sub files,
      check_directory_structure_changed ini url sub files false = .ok false) ∧
    (∀ url sub files,
      check_directory_structure_changed none url sub files true = .ok true) ∧
    (∀ (cfg : ModelConfig) url sub files,
      cfg.find? (fun sec => optValue sec ("url".data) = some url) = none →
      check_directory_structure_changed (some cfg) url sub files true = .ok true) ∧
    (∀ (cfg : ModelConfig) url sub files sec (n : Int),
      cfg.find? (fun sec => optValue sec ("url".data) = some url) = some sec →
      pyInt? ((optValue sec ("file_count".data)).getD ("0".data)) = some n →
      check_directory_structure_changed (some cfg) url sub files true =
        .ok (decide (n ≠ (files.length : Int)) ||
          decide ((optValue sec ("subdirectory".data)).getD [] ≠ sub))) ∧
    (∀ fenv listing url sub excl k ledger fs bp ts s,
      getOpt (download_directory fenv listing url sub excl k ledger fs bp ts).ledger
        s ("type".data) = getOpt ledger s ("type".data)) := by
  refine ⟨?_, ?_, ?_, ?_, ?_⟩
  · intro ini url sub files
    rfl
  · intro url sub files
    rfl
  · intro cfg url sub files hfind
    unfold check_directory_structure_changed
    rw [if_neg (by simp)]
    simp only []
    rw [hfind]
  · intro cfg url sub files sec n hfind hparse
    unfold check_directory_structure_changed
    rw [if_neg (by simp)]
    simp only []
    rw [hfind]
    simp only []
    rw [hparse]
    simp only []
    by_cases hcount : n ≠ (files.length : Int)
    · rw [if_pos hcount]
      simp [hcount]
    · rw [if_neg hcount]
      by_cases hsub : (optValue sec ("subdirectory".data)).getD [] ≠ sub
      · rw [if_pos hsub]
        simp [hcount, hsub]
      · rw [if_neg hsub]
        simp [hcount, hsub]
  · intro fenv listing url sub excl k ledger fs bp ts s
    unfold download_directory
    simp only []
    split
    · rfl
    · split
      · rfl
      · split
        · rfl
        · exact getOpt_type_dirFold fenv _ _ _ sub k bp ts _ ⟨[], [], [], ledger, fs, 0⟩ s

/-- C9 (witness): the disabled case, the no-matching-section case and
the matching-section case at concrete ledgers, and type-preservation at
the concrete mirror run of the counterexample. -/
theorem c9_structure_check_witness :
    check_directory_structure_changed (some [⟨"DIR_d".data,
      [("url".data, "u".data), ("file_count".data, "2".data),
        ("subdirectory".data, "sub".data)]⟩]) ("u".data) ("sub".data)
      [("a".data)] false = .ok false ∧
    check_directory_structure_changed none ("u".data) ("sub".data) [] true = .ok true ∧
    check_directory_structure_changed (some []) ("u".data) ("sub".data) [] true = .ok true ∧
    check_directory_structure_changed (some [⟨"DIR_d".data,
      [("url".data, "u".data), ("file_count".data, "2".data),
        ("subdirectory".data, "sub".data)]⟩]) ("u".data) ("sub".data)
      [("a".data)] true = .ok true ∧
    getOpt (download_directory (fun _ _ => .ok) [("d/a.bin".data)]
        ("https://huggingface.co/u/r/tree/main/d".data) ("sub".data)
        ("README.md, .gitattributes".data) 3 [] [] ("models".data) ("T".data)).ledger
      ("a_bin".data) ("type".data) = getOpt [] ("a_bin".data) ("type".data) := by
  refine ⟨?_, ?_, ?_, ?_, ?_⟩
  · exact c9_structure_check.1 (some [⟨"DIR_d".data,
      [("url".data, "u".data), ("file_count".data, "2".data),
        ("subdirectory".data, "sub".data)]⟩]) ("u".data) ("sub".data) [("a".data)]
  · exact c9_structure_check.2.1 ("u".data) ("sub".data) []
  · exact c9_structure_check.2.2.1 [] ("u".data) ("sub".data) [] rfl
  · have := c9_structure_check.2.2.2.1 [⟨"DIR_d".data,
      [("url".data, "u".data), ("file_count".data, "2".data),
        ("subdirectory".data, "sub".data)]⟩] ("u".data) ("sub".data) [("a".data)]
      ⟨"DIR_d".data, [("url".data, "u".data), ("file_count".data, "2".data),
        ("subdirectory".data, "sub".data)]⟩ 2 rfl (by decide)
    rw [this]
    rfl
  · exact c9_structure_check.2.2.2.2 (fun _ _ => .ok) [("d/a.bin".data)]
      ("https://huggingface.co/u/r/tree/main/d".data) ("sub".data)
      ("README.md, .gitattributes".data) 3 [] [] ("models".data) ("T".data)
      ("a_bin".data)
